import Mathlib

/-!
Shallow embedding of the Freenove FNK0089 MicroPython robot controller
(`main.py`): a non-blocking animation/timeout scheduler driving an RGB
LED strip (fades and fade sequences), an 8x16 bitmap matrix display
(frame cycling), and four PWM motor channels with a deferred auto-stop,
all dispatched from infrared remote-control codes.

Modelling conventions:
* MicroPython's millisecond tick counter (`utime.ticks_ms`,
  `utime.ticks_add`, `utime.ticks_diff`) is modelled over `ℤ` with the
  standard 2^30 tick period used by MicroPython ports; `%` on `ℤ` is
  euclidean mod, which agrees with Python's floor mod for the positive
  modulus used here.
* Colors are integer triples (no clamping, as in the source).
* Hardware writes (`self.np.write()`, calls to the matrix display
  function) are collected in an explicit effect list.
* Fallible Python operations (indexing `target[0]` or `sequence[0]` on
  an empty list) are modelled with `Option`.
* The float expression `int(s + (t - s) * progress)` with
  `progress = elapsed / duration` is modelled in exact arithmetic as
  truncated-toward-zero integer division `Int.tdiv`; the lemma
  `lerpChannel_eq_truncQ` proves this equal to the literal
  "truncate toward zero the rational `s + (t - s) * (elapsed/duration)`"
  formula.
-/

/-! ### Millisecond tick counter (`utime`) -/

/-- Tick period of the MicroPython millisecond counter: 2^30. -/
def TICKS_PERIOD : ℤ := 2 ^ 30

/-- Half the tick period, the window of `ticks_diff`. -/
def TICKS_HALF : ℤ := 2 ^ 29

/-- Model of `utime.ticks_add t delta`: wraparound addition into `[0, 2^30)`. -/
def ticks_add (t delta : ℤ) : ℤ := (t + delta) % TICKS_PERIOD

/-- Model of `utime.ticks_diff a b`: wraparound-safe signed difference in
`[-2^29, 2^29)`. -/
def ticks_diff (a b : ℤ) : ℤ := (a - b + TICKS_HALF) % TICKS_PERIOD - TICKS_HALF

/-- An RGB color: one integer per channel, as the Python `(r, g, b)` tuples. -/
abbrev Color : Type := ℤ × ℤ × ℤ

/-- Argument domain of `fade_to`'s `target` parameter: either a single color
tuple or a list of color tuples (the two shapes the source's
`isinstance(target, list) and isinstance(target[0], tuple)` test separates). -/
inductive RGBTarget where
  | single (c : Color)
  | vec (l : List Color)
deriving DecidableEq

/-- One matrix bitmap frame: a list of bytes (16 in well-formed assets). -/
abbrev Frame : Type := List ℤ

/-- Observable render-sink invocations of one operation: a whole-strip
NeoPixel write (`self.np.write()`, recording the pushed vector) or a call of
the matrix display function with one frame. -/
inductive Effect where
  | npWrite (v : List Color)
  | matrixWrite (f : Frame)
deriving DecidableEq

/-- State of `AnimationEngine` plus the NeoPixel buffer `self.np` it owns. -/
structure Engine where
  num_leds : ℕ
  np : List Color
  rgb_animating : Bool
  rgb_seq_active : Bool
  rgb_sequence : List (RGBTarget × ℤ)
  rgb_seq_idx : ℕ
  rgb_seq_loop : Bool
  rgb_start_time : ℤ
  rgb_duration : ℤ
  rgb_start_colors : List Color
  rgb_target_colors : List Color
  matrix_animating : Bool
  matrix_frames : List Frame
  matrix_delay : ℤ
  matrix_last_tick : ℤ
  matrix_idx : ℕ
deriving DecidableEq

/-- Model of `AnimationEngine.__init__`: `num_leds = len(np)`, animation
state cleared, start/target vectors all black. -/
def initEngine (np0 : List Color) : Engine :=
  { num_leds := np0.length
    np := np0
    rgb_animating := false
    rgb_seq_active := false
    rgb_sequence := []
    rgb_seq_idx := 0
    rgb_seq_loop := false
    rgb_start_time := 0
    rgb_duration := 0
    rgb_start_colors := List.replicate np0.length (0, 0, 0)
    rgb_target_colors := List.replicate np0.length (0, 0, 0)
    matrix_animating := false
    matrix_frames := []
    matrix_delay := 0
    matrix_last_tick := 0
    matrix_idx := 0 }

/-! ### Color interpolation (`update`, lines 106-113) -/

/-- Truncation of a rational toward zero, the behavior of Python's `int()`
on a float/number. -/
def truncQ (q : ℚ) : ℤ := if 0 ≤ q then ⌊q⌋ else ⌈q⌉

/-- One channel of the fade interpolation
`int(s + (t - s) * progress)` with `progress = elapsed / duration`,
in exact arithmetic: truncated-toward-zero division
`(s * duration + (t - s) * elapsed) tdiv duration`.
Lemma `lerpChannel_eq_truncQ` identifies this with the literal formula. -/
def lerpChannel (s t elapsed duration : ℤ) : ℤ :=
  Int.tdiv (s * duration + (t - s) * elapsed) duration

/-- Interpolation of one LED: the three channels of `(r, g, b)`. -/
def lerpColor (s t : Color) (elapsed duration : ℤ) : Color :=
  (lerpChannel s.1 t.1 elapsed duration,
   lerpChannel s.2.1 t.2.1 elapsed duration,
   lerpChannel s.2.2 t.2.2 elapsed duration)

/-! ### `AnimationEngine` operations -/

/-- Normalization of `fade_to`'s target argument (lines 38-44): a list of
the strip's length is used per-LED, any other list broadcasts its first
element (`target[0]`, which raises on an empty list: `none`), a single
tuple broadcasts itself. -/
def normalizeTarget (n : ℕ) (target : RGBTarget) : Option (List Color) :=
  match target with
  | RGBTarget.vec l =>
      match l with
      | [] => none
      | c0 :: _ => if l.length = n then some l else some (List.replicate n c0)
  | RGBTarget.single c => some (List.replicate n c)

/-- Model of `AnimationEngine.fade_to`: capture the current strip state as
the start vector, normalize and store the target, record duration and start
time, mark the fade active. No render push happens here. -/
def fade_to (en : Engine) (target : RGBTarget) (duration_ms : ℤ) (now : ℤ) :
    Option Engine :=
  match normalizeTarget en.num_leds target with
  | none => none
  | some tgt =>
      some { en with
        rgb_start_colors := en.np
        rgb_target_colors := tgt
        rgb_duration := duration_ms
        rgb_start_time := now
        rgb_animating := true }

/-- Model of `AnimationEngine.play_rgb_sequence`: store the sequence, reset
the index, mark the session active, and trigger the first step by `fade_to`
(`sequence[0]` raises on an empty sequence: `none`). -/
def play_rgb_sequence (en : Engine) (sequence : List (RGBTarget × ℤ))
    (loop : Bool) (now : ℤ) : Option Engine :=
  match sequence.head? with
  | none => none
  | some step =>
      fade_to { en with
          rgb_sequence := sequence
          rgb_seq_loop := loop
          rgb_seq_idx := 0
          rgb_seq_active := true } step.1 step.2 now

/-- Model of `AnimationEngine.stop_rgb`: deactivate fade and sequence, fill
the strip with black and push once. -/
def stop_rgb (en : Engine) : Engine × List Effect :=
  let en' := { en with
    rgb_animating := false
    rgb_seq_active := false
    np := List.replicate en.np.length ((0 : ℤ), (0 : ℤ), (0 : ℤ)) }
  (en', [Effect.npWrite en'.np])

/-- Model of `AnimationEngine.play_matrix`: store frames and delay, reset
index, `last_tick = now`, mark active, and render frame 0 immediately when
the frame list is non-empty. -/
def play_matrix (en : Engine) (frames_list : List Frame) (delay_ms : ℤ)
    (now : ℤ) : Engine × List Effect :=
  let en' := { en with
    matrix_frames := frames_list
    matrix_delay := delay_ms
    matrix_idx := 0
    matrix_last_tick := now
    matrix_animating := true }
  (en', if frames_list.isEmpty then [] else
    [Effect.matrixWrite (frames_list.getD 0 [])])

/-- Model of `AnimationEngine.stop_matrix`. -/
def stop_matrix (en : Engine) : Engine :=
  { en with matrix_animating := false }

/-- Element-wise copy loop `for i in range(num_leds): np[i] = src[i]`
(update, lines 86-87): produces the length-`n` vector read off `src`. -/
def copyVec (n : ℕ) (src : List Color) : List Color :=
  (List.range n).map (fun i => src.getD i (0, 0, 0))

/-- Sequence-step trigger shared by the wrap and the advance paths of
`update` (lines 100-101): read `rgb_sequence[rgb_seq_idx]` (out of range:
`none`) and start it via `fade_to`. -/
def continueSeq (en : Engine) (fx : List Effect) (now : ℤ) :
    Option (Engine × List Effect × Bool) :=
  match en.rgb_sequence.get? en.rgb_seq_idx with
  | none => none
  | some step =>
      (fade_to en step.1 step.2 now).map (fun en' => (en', fx, false))

/-- RGB half of `AnimationEngine.update` (lines 82-114). The `Bool` result
records whether the source's early `return` (line 98) fired, which skips
the matrix half of `update`. -/
def updateRgb (en : Engine) (now : ℤ) : Option (Engine × List Effect × Bool) :=
  if en.rgb_animating then
    let elapsed := ticks_diff now en.rgb_start_time
    if elapsed ≥ en.rgb_duration then
      let np' := copyVec en.num_leds en.rgb_target_colors
      let en1 := { en with np := np' }
      let fx := [Effect.npWrite np']
      if en1.rgb_seq_active then
        let en2 := { en1 with rgb_seq_idx := en1.rgb_seq_idx + 1 }
        if en2.rgb_seq_idx ≥ en2.rgb_sequence.length then
          if en2.rgb_seq_loop then
            continueSeq { en2 with rgb_seq_idx := 0 } fx now
          else
            some ({ en2 with rgb_seq_active := false, rgb_animating := false },
              fx, true)
        else
          continueSeq en2 fx now
      else
        some ({ en1 with rgb_animating := false }, fx, false)
    else
      if en.rgb_duration > 0 then
        let np' := (List.range en.num_leds).map (fun i =>
          lerpColor (en.rgb_start_colors.getD i (0, 0, 0))
            (en.rgb_target_colors.getD i (0, 0, 0)) elapsed en.rgb_duration)
        some ({ en with np := np' }, [Effect.npWrite np'], false)
      else
        some (en, [], false)
  else
    some (en, [], false)

/-- Matrix half of `AnimationEngine.update` (lines 117-121). -/
def updateMatrix (en : Engine) (now : ℤ) : Engine × List Effect :=
  if en.matrix_animating && !en.matrix_frames.isEmpty then
    if ticks_diff now en.matrix_last_tick > en.matrix_delay then
      let idx := (en.matrix_idx + 1) % en.matrix_frames.length
      ({ en with matrix_last_tick := now, matrix_idx := idx },
        [Effect.matrixWrite (en.matrix_frames.getD idx [])])
    else (en, [])
  else (en, [])

/-- Model of `AnimationEngine.update`: the RGB logic, then — unless the
early `return` of the non-looping-sequence-completion branch fired — the
matrix logic. -/
def update (en : Engine) (now : ℤ) : Option (Engine × List Effect) :=
  match updateRgb en now with
  | none => none
  | some (en1, fx1, earlyReturn) =>
      if earlyReturn then some (en1, fx1)
      else
        let (en2, fx2) := updateMatrix en1 now
        some (en2, fx1 ++ fx2)

/-! ### Motors, `drive`, and the main-loop auto-stop check -/

/-- Motor PWM duty constant (`speed = 32768`). -/
def speed : ℤ := 32768

/-- Duty pairs written by `drive` for direction values `fl fr rl rr`:
forward pin gets `speed` iff the value is positive, reverse pin gets
`speed` iff it is negative. -/
def driveDuties (dirs : List ℤ) : List (ℤ × ℤ) :=
  dirs.map (fun val =>
    ((if val > 0 then speed else 0), (if val < 0 then speed else 0)))

/-- Model of `drive`: the duty pairs for the four motors, and the new
`motor_stop_time` — `ticks_add now duration` for a positive duration,
`0` (no pending auto-stop) otherwise. -/
def drive (fl fr rl rr duration now : ℤ) : List (ℤ × ℤ) × ℤ :=
  (driveDuties [fl, fr, rl, rr],
   if duration > 0 then ticks_add now duration else 0)

/-- Auto-stop check of one main-loop iteration (run, lines 275-277):
`if motor_stop_time > 0 and ticks_ms() > motor_stop_time: stop();
motor_stop_time = 0`. Result: whether `stop()` was invoked, and the new
`motor_stop_time`. Note the raw `>` comparison of tick values. -/
def motorTick (motor_stop_time now : ℤ) : Bool × ℤ :=
  if motor_stop_time > 0 ∧ now > motor_stop_time then (true, 0)
  else (false, motor_stop_time)

/-- Iterated auto-stop check over a list of tick times: the final
`motor_stop_time` and, per tick, whether `stop()` was invoked there. -/
def motorRun (motor_stop_time : ℤ) : List ℤ → ℤ × List Bool
  | [] => (motor_stop_time, [])
  | t :: ts =>
      let (fired, mst') := motorTick motor_stop_time t
      let (mstF, rest) := motorRun mst' ts
      (mstF, fired :: rest)

/-! ### Assets: matrix frames and RGB sequences -/

/-- Matrix frame `face1`. -/
def face1 : Frame :=
  [0x0e, 0x11, 0x11, 0x11, 0x8e, 0x40, 0x20, 0x20,
   0x20, 0x20, 0x40, 0x8e, 0x11, 0x11, 0x11, 0x0e]

/-- Matrix frame `face2`. -/
def face2 : Frame :=
  [0x0e, 0x11, 0x11, 0x0e, 0x00, 0x60, 0x90, 0x90,
   0x90, 0x90, 0x60, 0x00, 0x0e, 0x11, 0x11, 0x0e]

/-- Matrix frame `flo`. -/
def flo : Frame :=
  [0x00, 0x7e, 0x12, 0x12, 0x02, 0x00, 0x7e, 0x40,
   0x40, 0x40, 0x00, 0x3c, 0x42, 0x42, 0x3c, 0x00]

/-- Matrix frame `f1`. -/
def f1 : Frame :=
  [0x06, 0x09, 0x09, 0x06, 0x00, 0x60, 0x40, 0x40,
   0x40, 0x40, 0x60, 0x00, 0x06, 0x09, 0x09, 0x06]

/-- Matrix frame `f2`. -/
def f2 : Frame :=
  [0x04, 0x0a, 0x0a, 0x04, 0x00, 0x60, 0x40, 0x40,
   0x40, 0x40, 0x60, 0x00, 0x04, 0x0a, 0x0a, 0x04]

/-- Matrix frame `f3`. -/
def f3 : Frame :=
  [0x04, 0x08, 0x08, 0x04, 0x00, 0x60, 0x40, 0x40,
   0x40, 0x40, 0x60, 0x00, 0x04, 0x08, 0x08, 0x04]

/-- Matrix frame `f4`. -/
def f4 : Frame :=
  [0x06, 0x09, 0x09, 0x06, 0x00, 0x60, 0x90, 0x90,
   0x90, 0x90, 0x60, 0x00, 0x06, 0x09, 0x09, 0x06]

/-- Matrix frame `r1`. -/
def r1 : Frame :=
  [0x11, 0xd2, 0x34, 0x00, 0x07, 0xe0, 0x00, 0x00,
   0x07, 0xe0, 0x00, 0x00, 0x07, 0xe4, 0x22, 0x22]

/-- Matrix frame `r2`. -/
def r2 : Frame :=
  [0x88, 0x4b, 0x2c, 0x00, 0xe0, 0x07, 0x00, 0x00,
   0xe0, 0x07, 0x00, 0x00, 0xe0, 0x27, 0x44, 0x44]

/-- Matrix frame `r3`. -/
def r3 : Frame :=
  [0x44, 0x44, 0x27, 0xe0, 0x00, 0x00, 0x07, 0xe0,
   0x00, 0x00, 0x07, 0xe0, 0x00, 0x2c, 0x4b, 0x88]

/-- Matrix frame `r4`. -/
def r4 : Frame :=
  [0x22, 0x22, 0xe4, 0x07, 0x00, 0x00, 0xe0, 0x07,
   0x00, 0x00, 0xe0, 0x07, 0x00, 0x34, 0xd2, 0x11]

/-- Matrix frame `k1`. -/
def k1 : Frame :=
  [0x00, 0x00, 0x00, 0x00, 0x3c, 0x24, 0xe7, 0x81,
   0x81, 0xe7, 0x24, 0x3c, 0x00, 0x00, 0x00, 0x00]

/-- Matrix frame `k2`. -/
def k2 : Frame :=
  [0x00, 0x00, 0x00, 0x00, 0x3c, 0x3c, 0xff, 0xff,
   0xff, 0xff, 0x3c, 0x3c, 0x00, 0x00, 0x00, 0x00]

/-- Matrix frame `k3`. -/
def k3 : Frame :=
  [0x00, 0x00, 0x00, 0x00, 0x00, 0x18, 0x18, 0x7e,
   0x7e, 0x18, 0x18, 0x00, 0x00, 0x00, 0x00, 0x00]

/-- Matrix frame `e` (all dark). -/
def e : Frame :=
  [0x00, 0x00, 0x00, 0x00, 0x00, 0x00, 0x00, 0x00,
   0x00, 0x00, 0x00, 0x00, 0x00, 0x00, 0x00, 0x00]

/-- Frame list `matrix_anim_talk`. -/
def matrix_anim_talk : List Frame := [face1, face2]

/-- Frame list `matrix_anim_blink`. -/
def matrix_anim_blink : List Frame := [f1, f2, f3, f2, f1, f1, f1, f4, f4, f1]

/-- Frame list `rotate`. -/
def rotate : List Frame := [r1, r2, r3, r4]

/-- Frame list `kreuz1`. -/
def kreuz1 : List Frame := [k3, k2, k1]

/-- Frame list `kreuz2`. -/
def kreuz2 : List Frame := [k3, e]

/-- Color constant `C_WARM`. -/
def C_WARM : Color := (140, 100, 20)

/-- Color constant `C_RED`. -/
def C_RED : Color := (150, 0, 0)

/-- Color constant `C_BLUE`. -/
def C_BLUE : Color := (0, 0, 150)

/-- Color constant `C_OFF`. -/
def C_OFF : Color := (0, 0, 0)

/-- LED vector `frame_blue_A`. -/
def frame_blue_A : List Color :=
  [C_WARM, C_BLUE, C_BLUE, C_RED, C_RED, C_OFF, C_OFF, C_WARM]

/-- LED vector `frame_blue_B`. -/
def frame_blue_B : List Color :=
  [C_WARM, C_OFF, C_OFF, C_RED, C_RED, C_BLUE, C_BLUE, C_WARM]

/-- RGB sequence `seq_custom_blink`. -/
def seq_custom_blink : List (RGBTarget × ℤ) :=
  [(RGBTarget.vec frame_blue_A, 300), (RGBTarget.vec frame_blue_B, 300)]

/-- RGB sequence `seq_breath`. -/
def seq_breath : List (RGBTarget × ℤ) :=
  [(RGBTarget.single (0, 60, 0), 1500), (RGBTarget.single (0, 2, 0), 1500)]

/-- RGB sequence `seq_police`. -/
def seq_police : List (RGBTarget × ℤ) :=
  [(RGBTarget.single (150, 0, 0), 100), (RGBTarget.single (0, 0, 0), 50),
   (RGBTarget.single (0, 0, 150), 100), (RGBTarget.single (0, 0, 0), 50)]

/-- RGB sequence `seq_rainbow`. -/
def seq_rainbow : List (RGBTarget × ℤ) :=
  [(RGBTarget.single (100, 0, 0), 500), (RGBTarget.single (80, 80, 0), 500),
   (RGBTarget.single (0, 100, 0), 500), (RGBTarget.single (0, 80, 80), 500),
   (RGBTarget.single (0, 0, 100), 500), (RGBTarget.single (80, 0, 80), 500)]

/-- One frame of the forward KITT loop (`for i in range(8)`): all dark, LED
`i` bright red, and for `i > 0` LED `i - 1` dim red. -/
def kittFrameUp (i : ℕ) : List Color :=
  let frame := (List.replicate 8 ((0 : ℤ), (0 : ℤ), (0 : ℤ))).set i (150, 0, 0)
  if i > 0 then frame.set (i - 1) (40, 0, 0) else frame

/-- One frame of the backward KITT loop (`for i in range(6, 0, -1)`): all
dark, LED `i` bright red, and for `i < 7` LED `i + 1` dim red. -/
def kittFrameDown (i : ℕ) : List Color :=
  let frame := (List.replicate 8 ((0 : ℤ), (0 : ℤ), (0 : ℤ))).set i (150, 0, 0)
  if i < 7 then frame.set (i + 1) (40, 0, 0) else frame

/-- RGB sequence `seq_kitt`: the forward loop over `i = 0..7` followed by
the backward loop over `i = 6..1`, each step lasting 100 ms. -/
def seq_kitt : List (RGBTarget × ℤ) :=
  (List.range 8).map (fun i => (RGBTarget.vec (kittFrameUp i), 100)) ++
  [6, 5, 4, 3, 2, 1].map (fun i => (RGBTarget.vec (kittFrameDown i), 100))

/-! ### Whole-program state and the IR dispatcher -/

/-- Mutable program state the dispatcher and main loop touch: the animation
engine, the four motor duty pairs, and the auto-stop deadline. -/
structure World where
  anim : Engine
  duties : List (ℤ × ℤ)
  motor_stop_time : ℤ
deriving DecidableEq

/-- Effect of `drive` on the world state. -/
def driveW (w : World) (fl fr rl rr duration now : ℤ) : World :=
  let (d, mst) := drive fl fr rl rr duration now
  { w with duties := d, motor_stop_time := mst }

/-- Model of `ir_callback data addr ctrl` (the `addr`/`ctrl` arguments are
unused by the source): negative codes return immediately; otherwise the
`if`/`elif` chain dispatches movement, RGB and matrix actions; an unmatched
code falls through the whole chain and does nothing. -/
def ir_callback (w : World) (data : ℤ) (now : ℤ) : Option (World × List Effect) :=
  if data < 0 then some (w, [])
  else if data = 64 then some (driveW w 1 1 1 1 400 now, [])
  else if data = 25 then some (driveW w (-1) (-1) (-1) (-1) 400 now, [])
  else if data = 7 then some (driveW w (-1) 1 1 (-1) 400 now, [])
  else if data = 9 then some (driveW w 1 (-1) (-1) 1 400 now, [])
  else if data = 68 then some (driveW w (-1) 1 (-1) 1 400 now, [])
  else if data = 67 then some (driveW w 1 (-1) 1 (-1) 400 now, [])
  else if data = 69 then
    (play_rgb_sequence w.anim seq_police true now).map (fun a => ({ w with anim := a }, []))
  else if data = 74 then
    (play_rgb_sequence w.anim seq_custom_blink true now).map (fun a => ({ w with anim := a }, []))
  else if data = 71 then
    (play_rgb_sequence w.anim seq_rainbow true now).map (fun a => ({ w with anim := a }, []))
  else if data = 21 then
    (play_rgb_sequence w.anim seq_breath true now).map (fun a => ({ w with anim := a }, []))
  else if data = 22 then
    (play_rgb_sequence w.anim seq_kitt true now).map (fun a => ({ w with anim := a }, []))
  else if data = 13 then
    let (a, fx) := stop_rgb w.anim
    some ({ w with anim := a }, fx)
  else if data = 12 then
    some ({ w with anim := stop_matrix w.anim }, [Effect.matrixWrite face1])
  else if data = 24 then
    let (a, fx) := play_matrix w.anim matrix_anim_talk 200 now
    some ({ w with anim := a }, fx)
  else if data = 94 then
    let (a, fx) := play_matrix w.anim matrix_anim_blink 80 now
    some ({ w with anim := a }, fx)
  else if data = 8 then
    some ({ w with anim := stop_matrix w.anim }, [Effect.matrixWrite flo])
  else if data = 28 then
    let (a, fx) := play_matrix w.anim rotate 80 now
    some ({ w with anim := a }, fx)
  else if data = 90 then
    let (a, fx) := play_matrix w.anim kreuz1 300 now
    some ({ w with anim := a }, fx)
  else if data = 66 then
    let (a, fx) := play_matrix w.anim kreuz2 300 now
    some ({ w with anim := a }, fx)
  else if data = 82 then
    some ({ w with anim := stop_matrix w.anim }, [Effect.matrixWrite e])
  else some (w, [])

/-- The set of IR codes the dispatcher maps to an action. -/
def irCodes : List ℤ :=
  [64, 25, 7, 9, 68, 67, 69, 74, 71, 21, 22, 13, 12, 24, 94, 8, 28, 90, 66, 82]

/-- One iteration of the main polling loop (run, lines 273-278):
`anim.update()` followed by the motor auto-stop check. Results: the new
world, the render effects, and whether `stop()` fired. -/
def loopIter (w : World) (now : ℤ) : Option (World × List Effect × Bool) :=
  match update w.anim now with
  | none => none
  | some (en, fx) =>
      let (fired, mst') := motorTick w.motor_stop_time now
      some ({ anim := en,
              duties := if fired then driveDuties [0, 0, 0, 0] else w.duties,
              motor_stop_time := mst' }, fx, fired)

/-- Iterated `update` over a list of tick times, with the per-tick effect
lists kept separate. -/
def runTicks (en : Engine) : List ℤ → Option (Engine × List (List Effect))
  | [] => some (en, [])
  | t :: ts =>
      match update en t with
      | none => none
      | some (en', fx) =>
          (runTicks en' ts).map (fun (ef, fxs) => (ef, fx :: fxs))

/-! ### Invariant predicates and concrete states used by the proofs -/

/-- Length invariant of the engine: the strip buffer and both fade vectors
have the strip's length. -/
def EngineWF (en : Engine) : Prop :=
  en.np.length = en.num_leds ∧ en.rgb_start_colors.length = en.num_leds ∧
  en.rgb_target_colors.length = en.num_leds

/-- Placeholder step used to read sequence entries total-ly in statements. -/
def dummyStep : RGBTarget × ℤ := (RGBTarget.single (0, 0, 0), 0)

/-- Well-formed sequence for a strip of `n` LEDs: every step's target
normalizes (in particular no empty target list) and every step's duration
is a representable non-negative tick span. -/
def SeqWF (n : ℕ) (seq : List (RGBTarget × ℤ)) : Prop :=
  ∀ i, i < seq.length →
    (normalizeTarget n ((seq.getD i dummyStep).1)).isSome ∧
    0 ≤ (seq.getD i dummyStep).2 ∧ (seq.getD i dummyStep).2 < TICKS_HALF

instance (n : ℕ) (seq : List (RGBTarget × ℤ)) : Decidable (SeqWF n seq) := by
  unfold SeqWF
  infer_instance

/-- The engine is in the middle of step `i` of sequence `seq`: both session
flags set, the stored fade is exactly step `i`'s fade. -/
def Running (seq : List (RGBTarget × ℤ)) (loop : Bool) (i : ℕ) (en : Engine) :
    Prop :=
  en.rgb_animating = true ∧ en.rgb_seq_active = true ∧
  en.rgb_sequence = seq ∧ en.rgb_seq_loop = loop ∧ en.rgb_seq_idx = i ∧
  i < seq.length ∧
  en.rgb_duration = (seq.getD i dummyStep).2 ∧
  normalizeTarget en.num_leds ((seq.getD i dummyStep).1) =
    some en.rgb_target_colors ∧
  en.np.length = en.num_leds

/-- A main-loop `update` sampled exactly when the current fade's duration
has elapsed. -/
def completingTick (en : Engine) : Option (Engine × List Effect) :=
  update en (ticks_add en.rgb_start_time en.rgb_duration)

/-- Iterate `completingTick`, dropping the effect lists. -/
def completeSteps : ℕ → Engine → Option Engine
  | 0, en => some en
  | k + 1, en =>
      match completingTick en with
      | none => none
      | some (en', _) => completeSteps k en'

/-- Tick condition under which the source's early `return` (line 98) fires:
an active fade completing while a non-looping sequence has no further step. -/
def seqCompletesNonLooping (en : Engine) (now : ℤ) : Prop :=
  en.rgb_animating = true ∧
  en.rgb_duration ≤ ticks_diff now en.rgb_start_time ∧
  en.rgb_seq_active = true ∧
  en.rgb_sequence.length ≤ en.rgb_seq_idx + 1 ∧
  en.rgb_seq_loop = false

instance (en : Engine) (now : ℤ) : Decidable (seqCompletesNonLooping en now) := by
  unfold seqCompletesNonLooping
  infer_instance

/-- Concrete whole-program starting state used by witnesses: the engine on
a freshly initialized 8-LED strip, idle motors, no pending deadline. -/
def W0 : World :=
  { anim := initEngine (List.replicate 8 ((0 : ℤ), (0 : ℤ), (0 : ℤ)))
    duties := List.replicate 4 (0, 0)
    motor_stop_time := 0 }

/-- Concrete 2-LED engine used by the C10 witness. -/
def E2 : Engine := initEngine [((1 : ℤ), 2, 3), ((4 : ℤ), 5, 6)]

/-- Concrete 1-LED engine in the middle of a 4 ms fade from black to
`(30, 30, 30)`, used by the C8 witness. -/
def E4 : Engine :=
  { num_leds := 1
    np := [((0 : ℤ), 0, 0)]
    rgb_animating := true
    rgb_seq_active := false
    rgb_sequence := []
    rgb_seq_idx := 0
    rgb_seq_loop := false
    rgb_start_time := 0
    rgb_duration := 4
    rgb_start_colors := [((0 : ℤ), 0, 0)]
    rgb_target_colors := [((30 : ℤ), 30, 30)]
    matrix_animating := false
    matrix_frames := []
    matrix_delay := 0
    matrix_last_tick := 0
    matrix_idx := 0 }

/-- State of `E4` after the tick at 1 ms: `int(0 + 30 * (1/4)) = 7`. -/
def E4up : Engine := { E4 with np := [((7 : ℤ), 7, 7)] }

/-- Concrete 1-LED engine with an active duration-0 fade to `(9, 9, 9)`,
used by the C1 witness. -/
def E1 : Engine :=
  { num_leds := 1
    np := [((1 : ℤ), 2, 3)]
    rgb_animating := true
    rgb_seq_active := false
    rgb_sequence := []
    rgb_seq_idx := 0
    rgb_seq_loop := false
    rgb_start_time := 0
    rgb_duration := 0
    rgb_start_colors := [((1 : ℤ), 2, 3)]
    rgb_target_colors := [((9 : ℤ), 9, 9)]
    matrix_animating := false
    matrix_frames := []
    matrix_delay := 0
    matrix_last_tick := 0
    matrix_idx := 0 }

/-- State of `E1` after its first tick: target applied, fade done. -/
def E1up : Engine := { E1 with np := [((9 : ℤ), 9, 9)], rgb_animating := false }

/-- Like `E1` but with a 1000 ms fade, used by the C1 witness for the
elapsed-0 conjunct. -/
def E3 : Engine := { E1 with rgb_duration := 1000 }

/-- Concrete 8-LED engine on a fresh strip, used by witnesses. -/
def E8 : Engine := initEngine (List.replicate 8 ((0 : ℤ), (0 : ℤ), (0 : ℤ)))

/-- Concrete 1-LED engine on a fresh strip, used by the C4 witness. -/
def E0 : Engine := initEngine [((0 : ℤ), 0, 0)]

/-- Concrete two-step non-looping sequence used by the C4 witness. -/
def seqW : List (RGBTarget × ℤ) :=
  [(RGBTarget.single (5, 5, 5), 10), (RGBTarget.single (7, 7, 7), 20)]

/-- Whole-program state in which a non-looping one-step sequence is about
to complete while the matrix cycler's interval has long elapsed; used by
the C9 counterexample and witness. -/
def CW : World :=
  { anim :=
      { num_leds := 1
        np := [((0 : ℤ), 0, 0)]
        rgb_animating := true
        rgb_seq_active := true
        rgb_sequence := [(RGBTarget.single (5, 5, 5), 10)]
        rgb_seq_idx := 0
        rgb_seq_loop := false
        rgb_start_time := 0
        rgb_duration := 10
        rgb_start_colors := [((0 : ℤ), 0, 0)]
        rgb_target_colors := [((5 : ℤ), 5, 5)]
        matrix_animating := true
        matrix_frames := [face1, face2]
        matrix_delay := 200
        matrix_last_tick := 0
        matrix_idx := 0 }
    duties := List.replicate 4 (0, 0)
    motor_stop_time := 0 }

/-- State of `CW` after the loop iteration at 300 ms: sequence deactivated,
matrix untouched. -/
def CW' : World :=
  { CW with anim :=
      { CW.anim with
        np := [((5 : ℤ), 5, 5)]
        rgb_seq_idx := 1
        rgb_seq_active := false
        rgb_animating := false } }

/-- Like `CW` but with the fade/sequence inactive, so the same iteration
does advance the matrix cycler; used by the C9 witness. -/
def CW2 : World :=
  { CW with anim := { CW.anim with rgb_animating := false } }

/-- State of `CW2` after the loop iteration at 300 ms: matrix advanced. -/
def CW2' : World :=
  { CW2 with anim :=
      { CW2.anim with
        matrix_last_tick := 300
        matrix_idx := 1 } }

/-- Wraparound-safe elapsed time: for any reference tick `s` (wrapped or not)
and a real elapsed time `d` within the half period, `ticks_diff` of the
wrapped later tick against the reference recovers `d` exactly. -/
theorem ticks_diff_ticks_add (s d : ℤ) (h0 : -TICKS_HALF ≤ d) (h1 : d < TICKS_HALF) :
    ticks_diff (ticks_add s d) s = d := by
  unfold ticks_diff ticks_add TICKS_PERIOD TICKS_HALF at *
  omega

/-! ### Helper lemmas: truncation and interpolation -/

/-- Truncation toward zero of an integer-valued rational is the integer. -/
theorem truncQ_intCast (z : ℤ) : truncQ (z : ℚ) = z := by
  unfold truncQ
  split <;> simp

/-- Truncation toward zero of `n / d` for positive `d` is `Int.tdiv n d`. -/
theorem truncQ_intCast_div (n d : ℤ) (hd : 0 < d) :
    truncQ ((n : ℚ) / (d : ℚ)) = n.tdiv d := by
  have hd0 : (0 : ℚ) < (d : ℚ) := by exact_mod_cast hd
  have hdt : ((d.toNat : ℕ) : ℤ) = d := Int.toNat_of_nonneg hd.le
  have hdq : ((d : ℚ)) = ((d.toNat : ℕ) : ℚ) := by exact_mod_cast hdt.symm
  by_cases hn : 0 ≤ n
  · have hq : (0 : ℚ) ≤ (n : ℚ) / (d : ℚ) :=
      div_nonneg (by exact_mod_cast hn) hd0.le
    rw [truncQ, if_pos hq, hdq, Rat.floor_intCast_div_natCast, hdt,
      Int.tdiv_eq_ediv hn hd.le]
  · push_neg at hn
    have hq : (n : ℚ) / (d : ℚ) < 0 :=
      div_neg_of_neg_of_pos (by exact_mod_cast hn) hd0
    rw [truncQ, if_neg (not_le.mpr hq)]
    rw [show ((n : ℚ) / (d : ℚ)) = -((((-n) : ℤ) : ℚ) / (d : ℚ)) by push_cast; ring]
    rw [Int.ceil_neg, hdq, Rat.floor_intCast_div_natCast, hdt]
    have h2 : Int.tdiv (-n) d = (-n) / d := Int.tdiv_eq_ediv (by omega) hd.le
    have h3 : Int.tdiv (-n) d = -(Int.tdiv n d) := Int.neg_tdiv n d
    omega

/-- The integer interpolation step equals the literal source formula: the
rational `s + (t - s) * (elapsed / duration)` truncated toward zero. -/
theorem lerpChannel_eq_truncQ (s t elapsed duration : ℤ) (hd : 0 < duration) :
    lerpChannel s t elapsed duration =
      truncQ ((s : ℚ) + ((t : ℚ) - (s : ℚ)) * ((elapsed : ℚ) / (duration : ℚ))) := by
  have hd0 : ((duration : ℚ)) ≠ 0 := by
    exact_mod_cast (ne_of_gt hd)
  have hq : (s : ℚ) + ((t : ℚ) - (s : ℚ)) * ((elapsed : ℚ) / (duration : ℚ)) =
      ((s * duration + (t - s) * elapsed : ℤ) : ℚ) / (duration : ℚ) := by
    field_simp
  rw [hq, truncQ_intCast_div _ _ hd]
  rfl

/-- Truncation toward zero is monotone. -/
theorem truncQ_mono {a b : ℚ} (h : a ≤ b) : truncQ a ≤ truncQ b := by
  unfold truncQ
  by_cases ha : 0 ≤ a
  · rw [if_pos ha, if_pos (le_trans ha h)]
    exact Int.floor_le_floor h
  · rw [if_neg ha]
    by_cases hb : 0 ≤ b
    · rw [if_pos hb]
      calc ⌈a⌉ ≤ 0 := Int.ceil_le.mpr (by exact_mod_cast le_of_not_le ha)
        _ ≤ ⌊b⌋ := Int.floor_nonneg.mpr hb
    · rw [if_neg hb]
      exact Int.ceil_le_ceil h

/-- A rational between two integers truncates to an integer between them. -/
theorem truncQ_bounds {lo hi : ℤ} {q : ℚ} (h1 : (lo : ℚ) ≤ q) (h2 : q ≤ (hi : ℚ)) :
    lo ≤ truncQ q ∧ truncQ q ≤ hi := by
  unfold truncQ
  by_cases hq : 0 ≤ q
  · rw [if_pos hq]
    refine ⟨Int.le_floor.mpr h1, ?_⟩
    have hf := Int.floor_le_floor h2
    simpa using hf
  · rw [if_neg hq]
    refine ⟨?_, Int.ceil_le.mpr h2⟩
    have hc := Int.ceil_le_ceil h1
    simpa using hc

/-! ### Helper lemmas: lists and engine invariants -/

/-- Reading `l.get? i` below the length gives the `getD` element. -/
theorem list_get?_getD {α : Type} (l : List α) (i : ℕ) (d : α)
    (h : i < l.length) : l.get? i = some (l.getD i d) := by
  rw [List.getD_eq_getElem?_getD, List.get?_eq_getElem?, List.getElem?_eq_getElem h]
  rfl

/-- A successfully normalized target vector always has the strip's length. -/
theorem normalizeTarget_length {n : ℕ} {t : RGBTarget} {v : List Color}
    (h : normalizeTarget n t = some v) : v.length = n := by
  cases t with
  | single c =>
      simp only [normalizeTarget, Option.some.injEq] at h
      subst h
      simp
  | vec l =>
      cases l with
      | nil => simp [normalizeTarget] at h
      | cons c0 tl =>
          simp only [normalizeTarget] at h
          by_cases hl : (c0 :: tl).length = n
          · rw [if_pos hl, Option.some.injEq] at h
            subst h
            exact hl
          · rw [if_neg hl, Option.some.injEq] at h
            subst h
            simp

/-- The indexed copy loop reproduces a source vector of the right length. -/
theorem copyVec_eq {n : ℕ} {src : List Color} (h : src.length = n) :
    copyVec n src = src := by
  subst h
  unfold copyVec
  apply List.ext_getElem
  · simp
  · intro i h1 h2
    simp only [List.getElem_map, List.getElem_range]
    rw [List.getD_eq_getElem?_getD, List.getElem?_eq_getElem h2]
    rfl

/-- The matrix half of `update` touches no RGB state and not the strip. -/
theorem updateMatrix_rgb (en : Engine) (now : ℤ) :
    (updateMatrix en now).1.np = en.np ∧
    (updateMatrix en now).1.num_leds = en.num_leds ∧
    (updateMatrix en now).1.rgb_animating = en.rgb_animating ∧
    (updateMatrix en now).1.rgb_seq_active = en.rgb_seq_active ∧
    (updateMatrix en now).1.rgb_sequence = en.rgb_sequence ∧
    (updateMatrix en now).1.rgb_seq_idx = en.rgb_seq_idx ∧
    (updateMatrix en now).1.rgb_seq_loop = en.rgb_seq_loop ∧
    (updateMatrix en now).1.rgb_start_time = en.rgb_start_time ∧
    (updateMatrix en now).1.rgb_duration = en.rgb_duration ∧
    (updateMatrix en now).1.rgb_start_colors = en.rgb_start_colors ∧
    (updateMatrix en now).1.rgb_target_colors = en.rgb_target_colors := by
  unfold updateMatrix
  split
  · split <;> simp
  · simp

/-- The matrix half of `update` never pushes to the LED strip. -/
theorem updateMatrix_no_npWrite (en : Engine) (now : ℤ) (v : List Color) :
    Effect.npWrite v ∉ (updateMatrix en now).2 := by
  unfold updateMatrix
  split
  · split <;> simp
  · simp

/-- With no fade in progress, `update` is exactly the matrix half. -/
theorem update_not_animating (en : Engine) (now : ℤ)
    (h : en.rgb_animating = false) :
    update en now = some ((updateMatrix en now).1, (updateMatrix en now).2) := by
  unfold update updateRgb
  rw [h]
  simp

/-- Unfolding of `continueSeq` when the indexed step exists and its target
normalizes: the next fade is started, no early return. -/
theorem continueSeq_spec (en2 : Engine) (fx : List Effect) (now : ℤ)
    (seq : List (RGBTarget × ℤ)) (j : ℕ)
    (hseq : en2.rgb_sequence = seq) (hidx : en2.rgb_seq_idx = j)
    (hj : j < seq.length)
    (hsome : (normalizeTarget en2.num_leds ((seq.getD j dummyStep).1)).isSome) :
    ∃ v, normalizeTarget en2.num_leds ((seq.getD j dummyStep).1) = some v ∧
      continueSeq en2 fx now =
        some ({ en2 with
                rgb_start_colors := en2.np
                rgb_target_colors := v
                rgb_duration := (seq.getD j dummyStep).2
                rgb_start_time := now
                rgb_animating := true }, fx, false) := by
  obtain ⟨v, hv⟩ := Option.isSome_iff_exists.mp hsome
  refine ⟨v, hv, ?_⟩
  unfold continueSeq
  rw [hseq, hidx, list_get?_getD seq j dummyStep hj]
  simp only [fade_to, ← List.getD_eq_getElem?_getD, hv, hseq, hidx]
  rfl

/-- Lifting an `updateRgb` result without early return through `update`. -/
theorem update_of_updateRgb (en : Engine) (now : ℤ) (en1 : Engine)
    (fx : List Effect)
    (h : updateRgb en now = some (en1, fx, false)) :
    update en now =
      some ((updateMatrix en1 now).1, fx ++ (updateMatrix en1 now).2) := by
  unfold update
  rw [h]
  rfl

/-- Lifting an `updateRgb` early return through `update`: the matrix half
is skipped. -/
theorem update_of_updateRgb_early (en : Engine) (now : ℤ) (en1 : Engine)
    (fx : List Effect)
    (h : updateRgb en now = some (en1, fx, true)) :
    update en now = some (en1, fx) := by
  unfold update
  rw [h]
  rfl

/-- The `Running` invariant only mentions state the matrix half preserves. -/
theorem Running_updateMatrix {seq : List (RGBTarget × ℤ)} {loop : Bool}
    {j : ℕ} {en3 : Engine} (now : ℤ) (h : Running seq loop j en3) :
    Running seq loop j (updateMatrix en3 now).1 := by
  obtain ⟨hm1, hm2, hm3, hm4, hm5, hm6, hm7, hm8, hm9, hm10, hm11⟩ :=
    updateMatrix_rgb en3 now
  obtain ⟨ha, hsa, hseq, hloop, hidx, hilen, hdur, htgt, hnp⟩ := h
  refine ⟨?_, ?_, ?_, ?_, ?_, hilen, ?_, ?_, ?_⟩ <;>
    simp_all

/-- A completing tick (elapsed exactly the step's duration) in the middle of
a sequence, or at its end with looping on: the strip is set to the completed
step's exact target, one push happens, and the next step's fade is started
(wrapping to step 0 at the end). -/
theorem updateRgb_completing_cont {seq : List (RGBTarget × ℤ)} {loop : Bool}
    {i : ℕ} {en : Engine}
    (hwf : SeqWF en.num_leds seq) (hr : Running seq loop i en)
    (hcase : loop = true ∨ i + 1 < seq.length) :
    ∃ en3,
      updateRgb en (ticks_add en.rgb_start_time en.rgb_duration) =
        some (en3, [Effect.npWrite en.rgb_target_colors], false) ∧
      Running seq loop ((i + 1) % seq.length) en3 ∧
      en3.np = en.rgb_target_colors ∧ en3.num_leds = en.num_leds := by
  obtain ⟨ha, hsa, hseq, hloop, hidx, hilen, hdur, htgt, hnp⟩ := hr
  have hwfi := hwf i hilen
  have htlen : en.rgb_target_colors.length = en.num_leds :=
    normalizeTarget_length htgt
  have hdnn : 0 ≤ en.rgb_duration := by rw [hdur]; exact hwfi.2.1
  have hel : ticks_diff (ticks_add en.rgb_start_time en.rgb_duration)
      en.rgb_start_time = en.rgb_duration := by
    apply ticks_diff_ticks_add
    · have hH : (0 : ℤ) < TICKS_HALF := by norm_num [TICKS_HALF]
      omega
    · rw [hdur]; exact hwfi.2.2
  have hcopy : copyVec en.num_leds en.rgb_target_colors = en.rgb_target_colors :=
    copyVec_eq htlen
  cases Nat.lt_or_ge (i + 1) seq.length with
  | inl hlt =>
      have hmod : (i + 1) % seq.length = i + 1 := Nat.mod_eq_of_lt hlt
      have hnotge : ¬ (i + 1 ≥ seq.length) := by omega
      have heval : updateRgb en (ticks_add en.rgb_start_time en.rgb_duration) =
          continueSeq { en with np := en.rgb_target_colors, rgb_seq_idx := i + 1 }
            [Effect.npWrite en.rgb_target_colors]
            (ticks_add en.rgb_start_time en.rgb_duration) := by
        simp only [updateRgb, ha, hel, hcopy, hsa, hseq, hidx, hloop, hnotge,
          ge_iff_le, le_refl, if_true, ite_true, if_false, ite_false]
      obtain ⟨v, hv, hcs⟩ := continueSeq_spec
        { en with np := en.rgb_target_colors, rgb_seq_idx := i + 1 }
        [Effect.npWrite en.rgb_target_colors]
        (ticks_add en.rgb_start_time en.rgb_duration) seq (i + 1)
        (by simp [hseq]) (by simp) hlt (by simpa using (hwf (i + 1) hlt).1)
      refine ⟨_, heval.trans hcs, ?_, by simp, by simp⟩
      rw [hmod]
      refine ⟨rfl, by simpa using hsa, by simpa using hseq, by simpa using hloop,
        by simp, hlt, by simp, ?_, by simpa using htlen⟩
      simpa using hv
  | inr hge =>
      have hloopT : loop = true := by
        cases hcase with
        | inl h => exact h
        | inr h => omega
      subst hloopT
      have hieq : i + 1 = seq.length := by omega
      have hmod : (i + 1) % seq.length = 0 := by rw [hieq, Nat.mod_self]
      have h0len : 0 < seq.length := by omega
      have heval : updateRgb en (ticks_add en.rgb_start_time en.rgb_duration) =
          continueSeq { en with np := en.rgb_target_colors, rgb_seq_idx := 0 }
            [Effect.npWrite en.rgb_target_colors]
            (ticks_add en.rgb_start_time en.rgb_duration) := by
        simp only [updateRgb, ha, hel, hcopy, hsa, hseq, hidx, hloop, hge,
          ge_iff_le, le_refl, if_true, ite_true, if_false, ite_false]
      obtain ⟨v, hv, hcs⟩ := continueSeq_spec
        { en with np := en.rgb_target_colors, rgb_seq_idx := 0 }
        [Effect.npWrite en.rgb_target_colors]
        (ticks_add en.rgb_start_time en.rgb_duration) seq 0
        (by simp [hseq]) (by simp) h0len (by simpa using (hwf 0 h0len).1)
      refine ⟨_, heval.trans hcs, ?_, by simp, by simp⟩
      rw [hmod]
      refine ⟨rfl, by simpa using hsa, by simpa using hseq, by simpa using hloop,
        by simp, h0len, by simp, ?_, by simpa using htlen⟩
      simpa using hv

/-- Any tick whose elapsed time has reached the duration of the last step
of a non-looping sequence: the strip is set to the last target, exactly one
push happens, both session flags are cleared, and the early `return` fires
(matrix state untouched). -/
theorem updateRgb_completing_last {seq : List (RGBTarget × ℤ)}
    {i : ℕ} {en : Engine} (now : ℤ)
    (hr : Running seq false i en)
    (hlast : i + 1 = seq.length)
    (hge : en.rgb_duration ≤ ticks_diff now en.rgb_start_time) :
    updateRgb en now =
      some ({ en with
                np := en.rgb_target_colors
                rgb_seq_idx := i + 1
                rgb_seq_active := false
                rgb_animating := false },
        [Effect.npWrite en.rgb_target_colors], true) := by
  obtain ⟨ha, hsa, hseq, hloop, hidx, hilen, hdur, htgt, hnp⟩ := hr
  have htlen : en.rgb_target_colors.length = en.num_leds :=
    normalizeTarget_length htgt
  have hcopy : copyVec en.num_leds en.rgb_target_colors = en.rgb_target_colors :=
    copyVec_eq htlen
  have hlen : i + 1 ≥ seq.length := by omega
  simp only [updateRgb, ha, hge, hcopy, hsa, hseq, hidx, hloop, hlen,
    ge_iff_le, le_refl, if_true, ite_true, if_false, ite_false,
    Bool.false_eq_true]

/-- Results of `continueSeq` keep the strip buffer, keep the pending effect
list, leave the fade marked active, and never early-return. -/
theorem continueSeq_out {en2 : Engine} {fx0 : List Effect} {now : ℤ}
    {en1 : Engine} {fx : List Effect} {b : Bool}
    (h : continueSeq en2 fx0 now = some (en1, fx, b)) :
    en1.np = en2.np ∧ en1.rgb_animating = true ∧ fx = fx0 ∧ b = false := by
  unfold continueSeq at h
  split at h
  · cases h
  · rw [Option.map_eq_some'] at h
    obtain ⟨a, hfa, hmap⟩ := h
    unfold fade_to at hfa
    split at hfa
    · cases hfa
    · rw [Option.some.injEq] at hfa
      subst hfa
      rw [Prod.mk.injEq, Prod.mk.injEq] at hmap
      obtain ⟨h1, h2, h3⟩ := hmap
      subst h1
      subst h2
      subst h3
      exact ⟨rfl, rfl, rfl, rfl⟩

/-- Any successful `update` tick whose elapsed time has reached the stored
duration leaves the strip at exactly the stored target vector, and its first
effect is the push of that exact vector. -/
theorem updateRgb_complete_np {en : Engine} {now : ℤ}
    (ha : en.rgb_animating = true)
    (hge : en.rgb_duration ≤ ticks_diff now en.rgb_start_time)
    (htlen : en.rgb_target_colors.length = en.num_leds) :
    ∀ en1 fx b, updateRgb en now = some (en1, fx, b) →
      en1.np = en.rgb_target_colors ∧
      fx.head? = some (Effect.npWrite en.rgb_target_colors) := by
  intro en1 fx b h
  have hcopy : copyVec en.num_leds en.rgb_target_colors = en.rgb_target_colors :=
    copyVec_eq htlen
  simp only [updateRgb, ha, hcopy, ge_iff_le, hge, if_true, ite_true] at h
  split at h
  · split at h
    · split at h
      · obtain ⟨hnp, _, hfx, _⟩ := continueSeq_out h
        subst hfx
        exact ⟨by simpa using hnp, rfl⟩
      · rw [Option.some.injEq, Prod.mk.injEq, Prod.mk.injEq] at h
        obtain ⟨h1, h2, _⟩ := h
        subst h1
        subst h2
        exact ⟨rfl, rfl⟩
    · obtain ⟨hnp, _, hfx, _⟩ := continueSeq_out h
      subst hfx
      exact ⟨by simpa using hnp, rfl⟩
  · rw [Option.some.injEq, Prod.mk.injEq, Prod.mk.injEq] at h
    obtain ⟨h1, h2, _⟩ := h
    subst h1
    subst h2
    exact ⟨rfl, rfl⟩

/-- A tick strictly inside a positive-duration fade interpolates: the strip
becomes the per-LED, per-channel interpolated vector, one push happens, the
fade and sequence state are untouched. -/
theorem updateRgb_interp {en : Engine} {now : ℤ}
    (ha : en.rgb_animating = true)
    (hlt : ticks_diff now en.rgb_start_time < en.rgb_duration)
    (hdpos : 0 < en.rgb_duration) :
    updateRgb en now =
      some ({ en with np := (List.range en.num_leds).map (fun i =>
              lerpColor (en.rgb_start_colors.getD i (0, 0, 0))
                (en.rgb_target_colors.getD i (0, 0, 0))
                (ticks_diff now en.rgb_start_time) en.rgb_duration) },
        [Effect.npWrite ((List.range en.num_leds).map (fun i =>
              lerpColor (en.rgb_start_colors.getD i (0, 0, 0))
                (en.rgb_target_colors.getD i (0, 0, 0))
                (ticks_diff now en.rgb_start_time) en.rgb_duration))], false) := by
  have hnotge : ¬ (ticks_diff now en.rgb_start_time ≥ en.rgb_duration) := by omega
  simp only [updateRgb, ha, hnotge, hdpos, gt_iff_lt, ge_iff_le, if_true,
    ite_true, if_false, ite_false]

/-- A tick strictly inside a fade never changes the session bookkeeping:
both flags, the sequence, the index, the loop flag, the stored fade and the
length bookkeeping survive. -/
theorem updateRgb_mid_flags {en : Engine} {now : ℤ}
    (ha : en.rgb_animating = true)
    (hlt : ticks_diff now en.rgb_start_time < en.rgb_duration) :
    ∀ en1 fx b, updateRgb en now = some (en1, fx, b) →
      en1.rgb_animating = true ∧ en1.rgb_seq_active = en.rgb_seq_active ∧
      en1.rgb_sequence = en.rgb_sequence ∧ en1.rgb_seq_idx = en.rgb_seq_idx ∧
      en1.rgb_seq_loop = en.rgb_seq_loop ∧
      en1.rgb_start_time = en.rgb_start_time ∧
      en1.rgb_duration = en.rgb_duration ∧
      en1.rgb_start_colors = en.rgb_start_colors ∧
      en1.rgb_target_colors = en.rgb_target_colors ∧
      en1.num_leds = en.num_leds ∧ b = false := by
  intro en1 fx b h
  have hnotge : ¬ (ticks_diff now en.rgb_start_time ≥ en.rgb_duration) := by
    omega
  simp only [updateRgb, ha, hnotge, gt_iff_lt, ge_iff_le, if_true, ite_true,
    if_false, ite_false] at h
  split at h
  · rw [Option.some.injEq, Prod.mk.injEq, Prod.mk.injEq] at h
    obtain ⟨h1, _, h3⟩ := h
    subst h1
    subst h3
    exact ⟨rfl, rfl, rfl, rfl, rfl, rfl, rfl, rfl, rfl, rfl, rfl⟩
  · rw [Option.some.injEq, Prod.mk.injEq, Prod.mk.injEq] at h
    obtain ⟨h1, _, h3⟩ := h
    subst h1
    subst h3
    exact ⟨ha, rfl, rfl, rfl, rfl, rfl, rfl, rfl, rfl, rfl, rfl⟩

/-! ### Completing-tick iteration -/

/-- The completing tick of a non-final (or looping) sequence step through
the full `update`: the push of the completed target happens first, and the
engine is running the next step (wrapped at the end of the sequence). -/
theorem completingTick_cont {seq : List (RGBTarget × ℤ)} {loop : Bool}
    {i : ℕ} {en : Engine}
    (hwf : SeqWF en.num_leds seq) (hr : Running seq loop i en)
    (hcase : loop = true ∨ i + 1 < seq.length) :
    ∃ en' fx2, completingTick en =
        some (en', Effect.npWrite en.rgb_target_colors :: fx2) ∧
      Running seq loop ((i + 1) % seq.length) en' ∧
      en'.np = en.rgb_target_colors ∧ en'.num_leds = en.num_leds := by
  obtain ⟨en3, heq, hrun, hnp, hnum⟩ := updateRgb_completing_cont hwf hr hcase
  have hu := update_of_updateRgb _ _ _ _ heq
  have hm := updateMatrix_rgb en3 (ticks_add en.rgb_start_time en.rgb_duration)
  refine ⟨(updateMatrix en3 (ticks_add en.rgb_start_time en.rgb_duration)).1,
    (updateMatrix en3 (ticks_add en.rgb_start_time en.rgb_duration)).2,
    ?_, Running_updateMatrix _ hrun, ?_, ?_⟩
  · rw [completingTick, hu]
    rfl
  · rw [hm.1, hnp]
  · rw [hm.2.1, hnum]

/-- Iterated completing ticks in a looping sequence never deactivate: after
`k` completed steps from step `i`, the engine is running step
`(i + k) mod length`. -/
theorem completeSteps_loop {seq : List (RGBTarget × ℤ)} :
    ∀ (k : ℕ) {i : ℕ} {en : Engine},
      SeqWF en.num_leds seq → Running seq true i en →
      ∃ en', completeSteps k en = some en' ∧
        Running seq true ((i + k) % seq.length) en' ∧
        en'.num_leds = en.num_leds := by
  intro k
  induction k with
  | zero =>
      intro i en _ hr
      refine ⟨en, rfl, ?_, rfl⟩
      rw [Nat.add_zero, Nat.mod_eq_of_lt hr.2.2.2.2.2.1]
      exact hr
  | succ k ih =>
      intro i en hwf hr
      obtain ⟨en1, fx2, hct, hrun1, _, hnum⟩ :=
        completingTick_cont hwf hr (Or.inl rfl)
      have hwf1 : SeqWF en1.num_leds seq := by rw [hnum]; exact hwf
      obtain ⟨en', hcs, hrun', hnum'⟩ := ih hwf1 hrun1
      refine ⟨en', ?_, ?_, hnum'.trans hnum⟩
      · simp only [completeSteps, hct]
        exact hcs
      · have harith : ((i + 1) % seq.length + k) % seq.length =
            (i + (k + 1)) % seq.length := by
          rw [Nat.mod_add_mod]
          congr 1
          omega
        rw [harith] at hrun'
        exact hrun'

/-- Iterated completing ticks in a non-looping sequence before its end:
after `j` completed steps from step `i` with `i + j` still in range, the
engine is running step `i + j` and both flags are still set. -/
theorem completeSteps_noloop {seq : List (RGBTarget × ℤ)} :
    ∀ (j : ℕ) {i : ℕ} {en : Engine},
      SeqWF en.num_leds seq → Running seq false i en →
      i + j < seq.length →
      ∃ en', completeSteps j en = some en' ∧
        Running seq false (i + j) en' ∧ en'.num_leds = en.num_leds := by
  intro j
  induction j with
  | zero =>
      intro i en _ hr _
      exact ⟨en, rfl, hr, rfl⟩
  | succ j ih =>
      intro i en hwf hr hij
      have hlt : i + 1 < seq.length := by omega
      obtain ⟨en1, fx2, hct, hrun1, _, hnum⟩ :=
        completingTick_cont hwf hr (Or.inr hlt)
      rw [Nat.mod_eq_of_lt hlt] at hrun1
      have hwf1 : SeqWF en1.num_leds seq := by rw [hnum]; exact hwf
      obtain ⟨en', hcs, hrun', hnum'⟩ := ih hwf1 hrun1 (by omega)
      refine ⟨en', ?_, ?_, hnum'.trans hnum⟩
      · simp only [completeSteps, hct]
        exact hcs
      · have : i + 1 + j = i + (j + 1) := by omega
        rw [this] at hrun'
        exact hrun'

/-- Starting a well-formed non-empty sequence puts the engine in the
`Running` state of step 0. -/
theorem play_rgb_sequence_Running {en0 : Engine} {seq : List (RGBTarget × ℤ)}
    {loop : Bool} {now0 : ℤ}
    (hnp : en0.np.length = en0.num_leds) (hne : seq ≠ [])
    (hwf : SeqWF en0.num_leds seq) :
    ∃ en1, play_rgb_sequence en0 seq loop now0 = some en1 ∧
      Running seq loop 0 en1 ∧ en1.num_leds = en0.num_leds := by
  cases seq with
  | nil => exact absurd rfl hne
  | cons s t =>
      have h0len : 0 < (s :: t).length := by simp
      have hsome := (hwf 0 h0len).1
      rw [show ((s :: t).getD 0 dummyStep) = s from rfl] at hsome
      obtain ⟨v, hv⟩ := Option.isSome_iff_exists.mp hsome
      have hrec : ({ en0 with
          rgb_sequence := s :: t
          rgb_seq_loop := loop
          rgb_seq_idx := 0
          rgb_seq_active := true } : Engine).num_leds = en0.num_leds := rfl
      refine ⟨{ en0 with
          rgb_sequence := s :: t
          rgb_seq_loop := loop
          rgb_seq_idx := 0
          rgb_seq_active := true
          rgb_start_colors := en0.np
          rgb_target_colors := v
          rgb_duration := s.2
          rgb_start_time := now0
          rgb_animating := true }, ?_, ?_, rfl⟩
      · simp only [play_rgb_sequence, List.head?_cons, fade_to]
        rw [hrec, hv]
      · refine ⟨rfl, rfl, rfl, rfl, rfl, h0len, rfl, ?_, by simpa using hnp⟩
        simpa using hv

/-- Inversion of a successful `update`: the RGB half succeeded, and the
result is either its early return or its output passed through the matrix
half. -/
theorem update_inv {en : Engine} {now : ℤ} {en' : Engine} {fx : List Effect}
    (h : update en now = some (en', fx)) :
    ∃ en1 fx1 b, updateRgb en now = some (en1, fx1, b) ∧
      ((b = true ∧ en' = en1 ∧ fx = fx1) ∨
       (b = false ∧ en' = (updateMatrix en1 now).1 ∧
        fx = fx1 ++ (updateMatrix en1 now).2)) := by
  unfold update at h
  split at h
  · cases h
  · next en1 fx1 bE heq =>
      cases bE with
      | true =>
          rw [if_pos rfl, Option.some.injEq, Prod.mk.injEq] at h
          exact ⟨en1, fx1, true, heq, Or.inl ⟨rfl, h.1.symm, h.2.symm⟩⟩
      | false =>
          rw [if_neg (by simp), Option.some.injEq, Prod.mk.injEq] at h
          exact ⟨en1, fx1, false, heq, Or.inr ⟨rfl, h.1.symm, h.2.symm⟩⟩

/-- After the fade/sequence state is inactive, a tick changes no RGB state
and pushes nothing to the strip. -/
theorem update_inactive {en : Engine} {now : ℤ}
    (h : en.rgb_animating = false) :
    ∃ en', update en now = some (en', (updateMatrix en now).2) ∧
      en'.np = en.np ∧ en'.rgb_animating = false ∧
      en'.rgb_seq_active = en.rgb_seq_active ∧
      (∀ v, Effect.npWrite v ∉ (updateMatrix en now).2) := by
  refine ⟨(updateMatrix en now).1, update_not_animating en now h, ?_, ?_, ?_, ?_⟩
  · exact (updateMatrix_rgb en now).1
  · rw [(updateMatrix_rgb en now).2.2.1]
    exact h
  · exact (updateMatrix_rgb en now).2.2.2.1
  · intro v
    exact updateMatrix_no_npWrite en now v

/-- Interpolating at elapsed 0 returns the start channel exactly. -/
theorem lerpChannel_zero (s t d : ℤ) (hd : d ≠ 0) : lerpChannel s t 0 d = s := by
  unfold lerpChannel
  rw [mul_zero, add_zero, Int.mul_tdiv_cancel _ hd]

/-- Interpolating a color at elapsed 0 returns the start color exactly. -/
theorem lerpColor_zero (s t : Color) (d : ℤ) (hd : d ≠ 0) :
    lerpColor s t 0 d = s := by
  unfold lerpColor
  rw [lerpChannel_zero _ _ _ hd, lerpChannel_zero _ _ _ hd,
    lerpChannel_zero _ _ _ hd]

/-- Starting the next sequence step touches no matrix state. -/
theorem continueSeq_out_matrix {en2 : Engine} {fx0 : List Effect} {now : ℤ}
    {en1 : Engine} {fx : List Effect} {b : Bool}
    (h : continueSeq en2 fx0 now = some (en1, fx, b)) :
    en1.matrix_animating = en2.matrix_animating ∧
    en1.matrix_frames = en2.matrix_frames ∧
    en1.matrix_delay = en2.matrix_delay ∧
    en1.matrix_last_tick = en2.matrix_last_tick ∧
    en1.matrix_idx = en2.matrix_idx := by
  unfold continueSeq at h
  split at h
  · cases h
  · rw [Option.map_eq_some'] at h
    obtain ⟨a, hfa, hmap⟩ := h
    unfold fade_to at hfa
    split at hfa
    · cases hfa
    · rw [Option.some.injEq] at hfa
      subst hfa
      rw [Prod.mk.injEq, Prod.mk.injEq] at hmap
      obtain ⟨h1, _, _⟩ := hmap
      subst h1
      exact ⟨rfl, rfl, rfl, rfl, rfl⟩

/-- The RGB half of `update` touches no matrix state and never calls the
matrix display function. -/
theorem updateRgb_matrix_pres {en : Engine} {now : ℤ} {en1 : Engine}
    {fx1 : List Effect} {b : Bool}
    (h : updateRgb en now = some (en1, fx1, b)) :
    en1.matrix_animating = en.matrix_animating ∧
    en1.matrix_frames = en.matrix_frames ∧
    en1.matrix_delay = en.matrix_delay ∧
    en1.matrix_last_tick = en.matrix_last_tick ∧
    en1.matrix_idx = en.matrix_idx ∧
    ∀ f, Effect.matrixWrite f ∉ fx1 := by
  simp only [updateRgb] at h
  split at h
  · split at h
    · split at h
      · split at h
        · split at h
          · obtain ⟨hm1, hm2, hm3, hm4, hm5⟩ := continueSeq_out_matrix h
            obtain ⟨_, _, hfx, _⟩ := continueSeq_out h
            subst hfx
            exact ⟨hm1, hm2, hm3, hm4, hm5, by simp⟩
          · rw [Option.some.injEq, Prod.mk.injEq, Prod.mk.injEq] at h
            obtain ⟨h1, h2, _⟩ := h
            subst h1
            subst h2
            exact ⟨rfl, rfl, rfl, rfl, rfl, by simp⟩
        · obtain ⟨hm1, hm2, hm3, hm4, hm5⟩ := continueSeq_out_matrix h
          obtain ⟨_, _, hfx, _⟩ := continueSeq_out h
          subst hfx
          exact ⟨hm1, hm2, hm3, hm4, hm5, by simp⟩
      · rw [Option.some.injEq, Prod.mk.injEq, Prod.mk.injEq] at h
        obtain ⟨h1, h2, _⟩ := h
        subst h1
        subst h2
        exact ⟨rfl, rfl, rfl, rfl, rfl, by simp⟩
    · split at h
      · rw [Option.some.injEq, Prod.mk.injEq, Prod.mk.injEq] at h
        obtain ⟨h1, h2, _⟩ := h
        subst h1
        subst h2
        exact ⟨rfl, rfl, rfl, rfl, rfl, by simp⟩
      · rw [Option.some.injEq, Prod.mk.injEq, Prod.mk.injEq] at h
        obtain ⟨h1, h2, _⟩ := h
        subst h1
        subst h2
        exact ⟨rfl, rfl, rfl, rfl, rfl, by simp⟩
  · rw [Option.some.injEq, Prod.mk.injEq, Prod.mk.injEq] at h
    obtain ⟨h1, h2, _⟩ := h
    subst h1
    subst h2
    exact ⟨rfl, rfl, rfl, rfl, rfl, by simp⟩

/-- Under the early-return condition, `updateRgb` deactivates the session
with a single strip push and requests the early return. -/
theorem updateRgb_eval_early (en : Engine) (now : ℤ)
    (hP : seqCompletesNonLooping en now) :
    updateRgb en now =
      some ({ en with
          np := copyVec en.num_leds en.rgb_target_colors
          rgb_seq_idx := en.rgb_seq_idx + 1
          rgb_seq_active := false
          rgb_animating := false },
        [Effect.npWrite (copyVec en.num_leds en.rgb_target_colors)], true) := by
  obtain ⟨ha, hge, hsa, hlen, hloop⟩ := hP
  simp only [updateRgb, ha, hsa, hloop, ge_iff_le, hge, hlen, if_true,
    ite_true, if_false, ite_false, Bool.false_eq_true]

/-- Without the early-return condition, `updateRgb` never early-returns. -/
theorem updateRgb_no_early (en : Engine) (now : ℤ)
    (hP : ¬ seqCompletesNonLooping en now) :
    ∀ en1 fx1 b, updateRgb en now = some (en1, fx1, b) → b = false := by
  intro en1 fx1 b h
  by_cases ha : en.rgb_animating = true
  · by_cases hge : en.rgb_duration ≤ ticks_diff now en.rgb_start_time
    · by_cases hsa : en.rgb_seq_active = true
      · by_cases hlen : en.rgb_sequence.length ≤ en.rgb_seq_idx + 1
        · have hloop : en.rgb_seq_loop = true := by
            by_contra hl
            have hl' : en.rgb_seq_loop = false := by
              revert hl
              cases en.rgb_seq_loop <;> simp
            exact hP ⟨ha, hge, hsa, hlen, hl'⟩
          simp only [updateRgb, ha, hge, hsa, hlen, hloop, ge_iff_le,
            if_true, ite_true] at h
          exact (continueSeq_out h).2.2.2
        · simp only [updateRgb, ha, hge, hsa, hlen, ge_iff_le, if_true,
            ite_true, if_false, ite_false] at h
          exact (continueSeq_out h).2.2.2
      · have hsa' : en.rgb_seq_active = false := by
          revert hsa
          cases en.rgb_seq_active <;> simp
        simp only [updateRgb, ha, hge, hsa', ge_iff_le, if_true, ite_true,
          if_false, ite_false, Bool.false_eq_true] at h
        rw [Option.some.injEq, Prod.mk.injEq, Prod.mk.injEq] at h
        exact h.2.2.symm
    · simp only [updateRgb, ha, hge, ge_iff_le, if_true, ite_true, if_false,
        ite_false] at h
      split at h <;>
        (rw [Option.some.injEq, Prod.mk.injEq, Prod.mk.injEq] at h
         exact h.2.2.symm)
  · have ha' : en.rgb_animating = false := by
      revert ha
      cases en.rgb_animating <;> simp
    simp only [updateRgb, ha', Bool.false_eq_true, if_false, ite_false] at h
    rw [Option.some.injEq, Prod.mk.injEq, Prod.mk.injEq] at h
    exact h.2.2.symm

/-- Inversion of one successful main-loop iteration: the engine result comes
from `update`, and the motor handling is exactly `motorTick`. -/
theorem loopIter_inv {w : World} {now : ℤ} {w' : World} {fx : List Effect}
    {fired : Bool} (h : loopIter w now = some (w', fx, fired)) :
    update w.anim now = some (w'.anim, fx) ∧
    (fired, w'.motor_stop_time) = motorTick w.motor_stop_time now ∧
    w'.duties = (if fired then driveDuties [0, 0, 0, 0] else w.duties) := by
  unfold loopIter at h
  split at h
  · cases h
  · next en fxE heq =>
      rw [Option.some.injEq, Prod.mk.injEq, Prod.mk.injEq] at h
      obtain ⟨hw, hfx, hfired⟩ := h
      subst hfx
      subst hfired
      subst hw
      refine ⟨heq, rfl, rfl⟩

/-! ### Claims -/

/-- C2 (amended): for a drive command scheduled at tick `t0 ≥ 0` with
positive duration `d` such that `t0 + d` does not wrap the tick counter,
the stored deadline is `t0 + d`; no stop action is invoked at any loop tick
with `now ≤ t0 + d` (in particular at every tick with elapsed time strictly
below the duration, but also — against the claim's `now >= deadline`
wording — still none at `now = t0 + d` exactly, because the source compares
with strict `>`); the stop action is invoked at any tick with
`now > t0 + d` and the deadline is then cleared to `0`, after which no tick
ever invokes stop again. -/
theorem C2_auto_stop (t0 d : ℤ) (h0 : 0 ≤ t0) (hd : 0 < d)
    (hnw : t0 + d < TICKS_PERIOD) :
    (drive 1 1 1 1 d t0).2 = t0 + d ∧
    (∀ now, now ≤ t0 + d → motorTick (t0 + d) now = (false, t0 + d)) ∧
    (∀ now, t0 + d < now → motorTick (t0 + d) now = (true, 0)) ∧
    (∀ now, motorTick 0 now = (false, 0)) := by
  refine ⟨?_, ?_, ?_, ?_⟩
  · show (if d > 0 then ticks_add t0 d else 0) = t0 + d
    rw [if_pos hd]
    unfold ticks_add
    exact Int.emod_eq_of_lt (by omega) (by omega)
  · intro now hle
    unfold motorTick
    rw [if_neg (by omega)]
  · intro now hgt
    unfold motorTick
    rw [if_pos ⟨by omega, hgt⟩]
  · intro now
    unfold motorTick
    rw [if_neg (by omega)]

/-- C2 (counterexample): a drive scheduled at tick 0 for 400 ms stores
deadline 400, but a loop tick at `now = 400` — the first tick with
`now ≥ deadline` — does NOT invoke the stop action; the stop only fires at
a later tick with `now > 400` (here 401). This refutes the claim's
"exactly one stop call is invoked at the first tick whose now satisfies
now >= deadline": the source compares `ticks_ms() > motor_stop_time`
strictly. -/
theorem C2_counterexample :
    (drive 1 1 1 1 400 0).2 = 400 ∧
    motorRun 400 [400, 401] = (0, [false, true]) := by decide

/-- C2 witness: the amended theorem at `t0 = 0`, `d = 400`. -/
theorem C2_witness :
    (drive 1 1 1 1 400 0).2 = 0 + 400 ∧
    motorTick (0 + 400) 400 = (false, 0 + 400) ∧
    motorTick (0 + 400) 401 = (true, 0) ∧
    motorTick 0 777 = (false, 0) := by
  have h := C2_auto_stop 0 400 (by norm_num) (by norm_num)
    (by norm_num [TICKS_PERIOD])
  exact ⟨h.1, h.2.1 400 (by norm_num), h.2.2.1 401 (by norm_num),
    h.2.2.2 777⟩

/-- C3 (code bug): the fade and matrix elapsed-time computations use
`ticks_diff` and are wraparound-safe — here the counter wraps from
`2^30 - 100` and `ticks_diff` still recovers the true elapsed 150 ms — but
the actuator auto-stop check compares `ticks_ms() > motor_stop_time` on raw
counter values: a drive scheduled for 400 ms at tick `2^30 - 100` stores
the wrapped deadline 300, and the very next loop tick at counter
`2^30 - 50` (true elapsed only 50 ms) already invokes the stop action. -/
theorem C3_wraparound :
    ticks_add (TICKS_PERIOD - 100) 150 = 50 ∧
    ticks_diff (ticks_add (TICKS_PERIOD - 100) 150) (TICKS_PERIOD - 100) =
      150 ∧
    (drive 1 1 1 1 400 (TICKS_PERIOD - 100)).2 = 300 ∧
    ticks_diff (TICKS_PERIOD - 50) (TICKS_PERIOD - 100) = 50 ∧
    motorTick (drive 1 1 1 1 400 (TICKS_PERIOD - 100)).2 (TICKS_PERIOD - 50) =
      (true, 0) := by decide

/-- C6: for every input code that is negative or not in the dispatch table,
`ir_callback` performs no action at all: the whole world state (engine
session state, actuator duties, auto-stop deadline) is returned unchanged
and no render-sink invocation happens, from every starting state. -/
theorem C6_unmapped_noop (w : World) (data now : ℤ)
    (h : data < 0 ∨ data ∉ irCodes) :
    ir_callback w data now = some (w, []) := by
  by_cases hneg : data < 0
  · unfold ir_callback
    rw [if_pos hneg]
  · rcases h with h | h
    · exact absurd h hneg
    · simp only [irCodes, List.mem_cons, List.mem_singleton, not_or] at h
      obtain ⟨h1, h2, h3, h4, h5, h6, h7, h8, h9, h10, h11, h12, h13, h14,
        h15, h16, h17, h18, h19, h20, -⟩ := h
      unfold ir_callback
      rw [if_neg hneg, if_neg h1, if_neg h2, if_neg h3, if_neg h4, if_neg h5,
        if_neg h6, if_neg h7, if_neg h8, if_neg h9, if_neg h10, if_neg h11,
        if_neg h12, if_neg h13, if_neg h14, if_neg h15, if_neg h16,
        if_neg h17, if_neg h18, if_neg h19, if_neg h20]

/-- C6 witness: the sentinel `-1` and the unmapped codes `1` and `65`. -/
theorem C6_witness :
    ir_callback W0 (-1) 5 = some (W0, []) ∧
    ir_callback W0 1 5 = some (W0, []) ∧
    ir_callback W0 65 5 = some (W0, []) :=
  ⟨C6_unmapped_noop W0 (-1) 5 (Or.inl (by norm_num)),
   C6_unmapped_noop W0 1 5 (Or.inr (by decide)),
   C6_unmapped_noop W0 65 5 (Or.inr (by decide))⟩

/-- C10: `fade_to` normalizes its target before storing it: a list of color
tuples of exactly the strip's length is stored per-LED; a non-empty list of
any other length has its first element broadcast to all LEDs; a single
color tuple is broadcast to all LEDs — so the stored target vector always
has the strip's length (the source reads `target[0]`, so an empty list is
outside the domain: it raises). In each case the start vector is captured
from the strip, and duration, start time and the active flag are stored. -/
theorem C10_fade_to_normalizes (en : Engine) (d now : ℤ) :
    (∀ l : List Color, l ≠ [] → l.length = en.num_leds →
      ∃ en', fade_to en (RGBTarget.vec l) d now = some en' ∧
        en'.rgb_target_colors = l ∧
        en'.rgb_target_colors.length = en.num_leds ∧
        en'.rgb_duration = d ∧ en'.rgb_start_time = now ∧
        en'.rgb_animating = true ∧ en'.rgb_start_colors = en.np) ∧
    (∀ (c0 : Color) (tl : List Color), (c0 :: tl).length ≠ en.num_leds →
      ∃ en', fade_to en (RGBTarget.vec (c0 :: tl)) d now = some en' ∧
        en'.rgb_target_colors = List.replicate en.num_leds c0 ∧
        en'.rgb_target_colors.length = en.num_leds ∧
        en'.rgb_duration = d ∧ en'.rgb_start_time = now ∧
        en'.rgb_animating = true ∧ en'.rgb_start_colors = en.np) ∧
    (∀ c : Color,
      ∃ en', fade_to en (RGBTarget.single c) d now = some en' ∧
        en'.rgb_target_colors = List.replicate en.num_leds c ∧
        en'.rgb_target_colors.length = en.num_leds ∧
        en'.rgb_duration = d ∧ en'.rgb_start_time = now ∧
        en'.rgb_animating = true ∧ en'.rgb_start_colors = en.np) := by
  refine ⟨?_, ?_, ?_⟩
  · intro l hne hlen
    cases l with
    | nil => exact absurd rfl hne
    | cons c0 tl =>
        have heval : fade_to en (RGBTarget.vec (c0 :: tl)) d now =
            some { en with
              rgb_start_colors := en.np
              rgb_target_colors := c0 :: tl
              rgb_duration := d
              rgb_start_time := now
              rgb_animating := true } := by
          simp only [List.length_cons] at hlen
          simp [fade_to, normalizeTarget, hlen]
        exact ⟨_, heval, rfl, hlen, rfl, rfl, rfl, rfl⟩
  · intro c0 tl hlen
    have heval : fade_to en (RGBTarget.vec (c0 :: tl)) d now =
        some { en with
          rgb_start_colors := en.np
          rgb_target_colors := List.replicate en.num_leds c0
          rgb_duration := d
          rgb_start_time := now
          rgb_animating := true } := by
      simp only [List.length_cons] at hlen
      simp [fade_to, normalizeTarget, hlen]
    exact ⟨_, heval, rfl, by simp, rfl, rfl, rfl, rfl⟩
  · intro c
    have heval : fade_to en (RGBTarget.single c) d now =
        some { en with
          rgb_start_colors := en.np
          rgb_target_colors := List.replicate en.num_leds c
          rgb_duration := d
          rgb_start_time := now
          rgb_animating := true } := by
      simp [fade_to, normalizeTarget]
    exact ⟨_, heval, rfl, by simp, rfl, rfl, rfl, rfl⟩

/-- C10 witness: the three normalization shapes on a 2-LED strip. -/
theorem C10_witness :
    (fade_to E2 (RGBTarget.vec [((9 : ℤ), 9, 9), ((8 : ℤ), 8, 8)]) 100 7).map
        (fun en' => en'.rgb_target_colors) =
      some [((9 : ℤ), 9, 9), ((8 : ℤ), 8, 8)] ∧
    (fade_to E2 (RGBTarget.vec [((5 : ℤ), 5, 5)]) 100 7).map
        (fun en' => en'.rgb_target_colors) =
      some (List.replicate E2.num_leds ((5 : ℤ), 5, 5)) ∧
    (fade_to E2 (RGBTarget.single ((6 : ℤ), 6, 6)) 100 7).map
        (fun en' => en'.rgb_target_colors) =
      some (List.replicate E2.num_leds ((6 : ℤ), 6, 6)) := by
  obtain ⟨enA, hA, hA2, _⟩ := (C10_fade_to_normalizes E2 100 7).1
    [((9 : ℤ), 9, 9), ((8 : ℤ), 8, 8)] (by decide) (by decide)
  obtain ⟨enB, hB, hB2, _⟩ := (C10_fade_to_normalizes E2 100 7).2.1
    ((5 : ℤ), 5, 5) [] (by decide)
  obtain ⟨enC, hC, hC2, _⟩ := (C10_fade_to_normalizes E2 100 7).2.2
    ((6 : ℤ), 6, 6)
  rw [hA, hB, hC]
  simp [hA2, hB2, hC2]

/-- C8: during an active fade with positive duration, each channel of each
LED is the source formula `start + (target - start) * progress` truncated
toward zero (conjunct 1 states `lerpChannel` — the integer form used by the
embedding of `update` — equals that literal rational formula); for
`0 < elapsed ≤ elapsed' < duration` the per-channel value is monotone
(non-decreasing towards a larger target, non-increasing towards a smaller
one) and always lies between start and target; and a mid-fade `update` tick
sets the strip to exactly this per-LED interpolation. -/
theorem C8_interpolation (s t e1 e2 d : ℤ) (hd : 0 < d) (h1 : 0 < e1)
    (h2 : e1 ≤ e2) (h3 : e2 < d) :
    lerpChannel s t e1 d =
      truncQ ((s : ℚ) + ((t : ℚ) - (s : ℚ)) * ((e1 : ℚ) / (d : ℚ))) ∧
    (s ≤ t → lerpChannel s t e1 d ≤ lerpChannel s t e2 d ∧
      s ≤ lerpChannel s t e1 d ∧ lerpChannel s t e1 d ≤ t) ∧
    (t ≤ s → lerpChannel s t e2 d ≤ lerpChannel s t e1 d ∧
      t ≤ lerpChannel s t e1 d ∧ lerpChannel s t e1 d ≤ s) ∧
    (∀ (en : Engine) (now : ℤ), en.rgb_animating = true →
      0 < en.rgb_duration →
      ticks_diff now en.rgb_start_time < en.rgb_duration →
      ∀ en' fx, update en now = some (en', fx) →
        en'.np = (List.range en.num_leds).map (fun i =>
          lerpColor (en.rgb_start_colors.getD i (0, 0, 0))
            (en.rgb_target_colors.getD i (0, 0, 0))
            (ticks_diff now en.rgb_start_time) en.rgb_duration)) := by
  have hd0 : (0 : ℚ) < (d : ℚ) := by exact_mod_cast hd
  have he1nn : (0 : ℚ) ≤ (e1 : ℚ) := by exact_mod_cast h1.le
  have he12 : (e1 : ℚ) ≤ (e2 : ℚ) := by exact_mod_cast h2
  have hp1 : (0 : ℚ) ≤ (e1 : ℚ) / (d : ℚ) := div_nonneg he1nn hd0.le
  have hp2 : (e1 : ℚ) / (d : ℚ) ≤ 1 := by
    rw [div_le_one hd0]
    exact_mod_cast (by omega : e1 ≤ d)
  have hdiv : (e1 : ℚ) / (d : ℚ) ≤ (e2 : ℚ) / (d : ℚ) := by
    exact div_le_div_of_nonneg_right he12 hd0.le
  refine ⟨lerpChannel_eq_truncQ s t e1 d hd, ?_, ?_, ?_⟩
  · intro hst
    have hts : (0 : ℚ) ≤ (t : ℚ) - (s : ℚ) := by
      have : (s : ℚ) ≤ (t : ℚ) := by exact_mod_cast hst
      linarith
    refine ⟨?_, ?_⟩
    · rw [lerpChannel_eq_truncQ s t e1 d hd, lerpChannel_eq_truncQ s t e2 d hd]
      apply truncQ_mono
      nlinarith [mul_le_mul_of_nonneg_left hdiv hts]
    · rw [lerpChannel_eq_truncQ s t e1 d hd]
      apply truncQ_bounds
      · nlinarith [mul_nonneg hts hp1]
      · nlinarith [mul_le_mul_of_nonneg_left hp2 hts]
  · intro hst
    have hts : (t : ℚ) - (s : ℚ) ≤ 0 := by
      have : (t : ℚ) ≤ (s : ℚ) := by exact_mod_cast hst
      linarith
    refine ⟨?_, ?_⟩
    · rw [lerpChannel_eq_truncQ s t e1 d hd, lerpChannel_eq_truncQ s t e2 d hd]
      apply truncQ_mono
      nlinarith [mul_le_mul_of_nonpos_left hdiv hts]
    · rw [lerpChannel_eq_truncQ s t e1 d hd]
      apply truncQ_bounds
      · nlinarith [mul_le_mul_of_nonpos_left hp2 hts]
      · nlinarith [mul_nonneg (by linarith : (0 : ℚ) ≤ (s : ℚ) - (t : ℚ)) hp1]
  · intro en now ha hdpos hlt en' fx h
    have heval := updateRgb_interp ha hlt hdpos
    obtain ⟨en1, fx1, b, hrgb, hcase⟩ := update_inv h
    rw [heval, Option.some.injEq, Prod.mk.injEq, Prod.mk.injEq] at hrgb
    obtain ⟨hX, hFX, hb⟩ := hrgb
    rcases hcase with ⟨hbt, he, hf⟩ | ⟨hbf, he, hf⟩
    · rw [hbt] at hb
      cases hb
    · subst he
      rw [(updateMatrix_rgb en1 now).1, ← hX]

/-- C8 witness: monotonicity and bounds at `s = 0, t = 30, d = 4` in both
channel directions, and the mid-fade tick of `E4` at 1 ms. -/
theorem C8_witness :
    lerpChannel 0 30 1 4 ≤ lerpChannel 0 30 2 4 ∧
    (0 : ℤ) ≤ lerpChannel 0 30 1 4 ∧ lerpChannel 0 30 1 4 ≤ 30 ∧
    lerpChannel 30 0 2 4 ≤ lerpChannel 30 0 1 4 ∧
    (0 : ℤ) ≤ lerpChannel 30 0 1 4 ∧ lerpChannel 30 0 1 4 ≤ 30 ∧
    E4up.np = (List.range E4.num_leds).map (fun i =>
      lerpColor (E4.rgb_start_colors.getD i (0, 0, 0))
        (E4.rgb_target_colors.getD i (0, 0, 0))
        (ticks_diff 1 E4.rgb_start_time) E4.rgb_duration) := by
  have hA := (C8_interpolation 0 30 1 2 4 (by norm_num) (by norm_num)
    (by norm_num) (by norm_num)).2.1 (by norm_num)
  have hB := (C8_interpolation 30 0 1 2 4 (by norm_num) (by norm_num)
    (by norm_num) (by norm_num)).2.2.1 (by norm_num)
  have hC := (C8_interpolation 0 30 1 2 4 (by norm_num) (by norm_num)
    (by norm_num) (by norm_num)).2.2.2 E4 1 rfl (by decide) (by decide)
    E4up [Effect.npWrite [((7 : ℤ), 7, 7)]] (by decide)
  exact ⟨hA.1, hA.2.1, hA.2.2, hB.1, hB.2.1, hB.2.2, hC⟩

/-- C1: for an active fade, any `update` tick whose elapsed time
(`ticks_diff now start_time`) has reached the stored duration sets the
strip to exactly the stored target vector and pushes it (first effect); in
particular a fade with duration 0 applies the target on the very first tick
(any tick with non-negative elapsed time); and for positive duration a tick
at elapsed time exactly 0 renders exactly the captured start vector. -/
theorem C1_fade_exact (en : Engine) (now : ℤ) (hwf : EngineWF en)
    (ha : en.rgb_animating = true) :
    (en.rgb_duration ≤ ticks_diff now en.rgb_start_time →
      ∀ en' fx, update en now = some (en', fx) →
        en'.np = en.rgb_target_colors ∧
        fx.head? = some (Effect.npWrite en.rgb_target_colors)) ∧
    (en.rgb_duration = 0 → 0 ≤ ticks_diff now en.rgb_start_time →
      ∀ en' fx, update en now = some (en', fx) →
        en'.np = en.rgb_target_colors ∧
        fx.head? = some (Effect.npWrite en.rgb_target_colors)) ∧
    (0 < en.rgb_duration → ticks_diff now en.rgb_start_time = 0 →
      ∀ en' fx, update en now = some (en', fx) →
        en'.np = en.rgb_start_colors ∧
        fx.head? = some (Effect.npWrite en.rgb_start_colors)) := by
  obtain ⟨hnp, hsl, htl⟩ := hwf
  have main : en.rgb_duration ≤ ticks_diff now en.rgb_start_time →
      ∀ en' fx, update en now = some (en', fx) →
        en'.np = en.rgb_target_colors ∧
        fx.head? = some (Effect.npWrite en.rgb_target_colors) := by
    intro hge en' fx h
    obtain ⟨en1, fx1, b, hrgb, hcase⟩ := update_inv h
    obtain ⟨hnp1, hhead⟩ := updateRgb_complete_np ha hge htl en1 fx1 b hrgb
    rcases hcase with ⟨hb, he, hf⟩ | ⟨hb, he, hf⟩
    · subst he
      subst hf
      exact ⟨hnp1, hhead⟩
    · subst he
      subst hf
      refine ⟨?_, ?_⟩
      · rw [(updateMatrix_rgb en1 now).1]
        exact hnp1
      · cases fx1 with
        | nil => cases hhead
        | cons a l =>
            rw [List.head?_cons, Option.some.injEq] at hhead
            subst hhead
            rfl
  refine ⟨main, fun h0 hge0 => main (by omega), ?_⟩
  intro hdpos h0 en' fx h
  have heval := @updateRgb_interp en now ha (by omega) hdpos
  rw [h0] at heval
  have hd0 : en.rgb_duration ≠ 0 := ne_of_gt hdpos
  have hzero : (List.range en.num_leds).map (fun i =>
      lerpColor (en.rgb_start_colors.getD i (0, 0, 0))
        (en.rgb_target_colors.getD i (0, 0, 0)) 0 en.rgb_duration) =
      en.rgb_start_colors := by
    calc (List.range en.num_leds).map (fun i =>
          lerpColor (en.rgb_start_colors.getD i (0, 0, 0))
            (en.rgb_target_colors.getD i (0, 0, 0)) 0 en.rgb_duration)
        = (List.range en.num_leds).map (fun i =>
            en.rgb_start_colors.getD i (0, 0, 0)) := by
          apply List.map_congr_left
          intro i _
          exact lerpColor_zero _ _ _ hd0
      _ = copyVec en.num_leds en.rgb_start_colors := rfl
      _ = en.rgb_start_colors := copyVec_eq hsl
  rw [hzero] at heval
  obtain ⟨en1, fx1, b, hrgb, hcase⟩ := update_inv h
  rw [heval, Option.some.injEq, Prod.mk.injEq, Prod.mk.injEq] at hrgb
  obtain ⟨hX, hFX, hb⟩ := hrgb
  rcases hcase with ⟨hbt, he, hf⟩ | ⟨hbf, he, hf⟩
  · rw [hbt] at hb
    cases hb
  · subst he
    subst hf
    refine ⟨?_, ?_⟩
    · rw [(updateMatrix_rgb en1 now).1, ← hX]
    · rw [← hFX]
      rfl

/-- C1 witness: a duration-0 fade applies the target at its first tick
(`E1` at 5 ms), and a 1000 ms fade sampled at elapsed 0 renders the
captured start vector (`E3` at 0 ms). -/
theorem C1_witness :
    E1up.np = E1.rgb_target_colors ∧
    ([Effect.npWrite [((9 : ℤ), 9, 9)]].head? =
      some (Effect.npWrite E1.rgb_target_colors)) ∧
    E3.np = E3.rgb_start_colors ∧
    ([Effect.npWrite [((1 : ℤ), 2, 3)]].head? =
      some (Effect.npWrite E3.rgb_start_colors)) := by
  have h1 := (C1_fade_exact E1 5 ⟨rfl, rfl, rfl⟩ (by decide)).1 (by decide)
    E1up [Effect.npWrite [((9 : ℤ), 9, 9)]] (by decide)
  have h3 := (C1_fade_exact E3 0 ⟨rfl, rfl, rfl⟩ (by decide)).2.2 (by decide)
    (by decide) E3 [Effect.npWrite [((1 : ℤ), 2, 3)]] (by decide)
  exact ⟨h1.1, h1.2, h3.1, h3.2⟩

/-- C5: a non-empty well-formed sequence started with `loop = true` stays
active forever: after `k * length seq` completed steps (each step completed
by a tick at its duration), for any `k ≥ 1, the session flags are still
set and the index has wrapped so that step 0 is being replayed. -/
theorem C5_loop_stays_active (seq : List (RGBTarget × ℤ)) (en0 : Engine)
    (now0 : ℤ) (k : ℕ) (_hk : 1 ≤ k) (hne : seq ≠ [])
    (hwf : SeqWF en0.num_leds seq) (hnp : en0.np.length = en0.num_leds) :
    ∃ en1 enk, play_rgb_sequence en0 seq true now0 = some en1 ∧
      completeSteps (k * seq.length) en1 = some enk ∧
      enk.rgb_seq_active = true ∧ enk.rgb_animating = true ∧
      enk.rgb_seq_idx = 0 ∧ Running seq true 0 enk := by
  obtain ⟨en1, hplay, hrun, hnum⟩ := play_rgb_sequence_Running hnp hne hwf
  have hwf1 : SeqWF en1.num_leds seq := by rw [hnum]; exact hwf
  obtain ⟨enk, hcs, hrunk, _⟩ := completeSteps_loop (k * seq.length) hwf1 hrun
  have hmod : (0 + k * seq.length) % seq.length = 0 := by
    simp [Nat.mul_mod_left]
  rw [hmod] at hrunk
  exact ⟨en1, enk, hplay, hcs, hrunk.2.1, hrunk.1, hrunk.2.2.2.2.1, hrunk⟩

/-- C5 witness: the police sequence looping on the 8-LED strip, one full
round (`k = 1`, 4 completed steps). -/
theorem C5_witness :
    ((play_rgb_sequence E8 seq_police true 0).bind
        (completeSteps (1 * seq_police.length))).map
      (fun en => (en.rgb_seq_active, en.rgb_animating, en.rgb_seq_idx)) =
      some (true, true, 0) := by
  obtain ⟨en1, enk, hplay, hcs, h1, h2, h3, _⟩ :=
    C5_loop_stays_active seq_police E8 0 1 (by norm_num) (by decide)
      (by decide) (by decide)
  rw [hplay, Option.some_bind, hcs, Option.map_some', h1, h2, h3]

/-- C4: a non-empty well-formed sequence started with `loop = false`
deactivates exactly when its last step's duration elapses: after any
`j < length` completed steps the session flags are still set; once the
engine is on the last step, ANY tick whose elapsed time reaches the step's
duration (in particular the exact completing tick) pushes exactly the last
step's normalized target once (the early return skips everything else) and
clears both flags; after deactivation every tick keeps the strip and the inactive flag
and performs no strip push (only the independent matrix cycler may still
render); and a tick strictly inside a step's fade never deactivates. -/
theorem C4_nonloop_terminates (seq : List (RGBTarget × ℤ)) (en0 : Engine)
    (now0 : ℤ) (hne : seq ≠ []) (hwf : SeqWF en0.num_leds seq)
    (hnp : en0.np.length = en0.num_leds) :
    ∃ en1, play_rgb_sequence en0 seq false now0 = some en1 ∧
      (∀ j, j < seq.length → ∃ enj, completeSteps j en1 = some enj ∧
        enj.rgb_seq_active = true ∧ enj.rgb_animating = true) ∧
      (∃ enPre, completeSteps (seq.length - 1) en1 = some enPre ∧
        (∀ now, enPre.rgb_duration ≤ ticks_diff now enPre.rgb_start_time →
          ∃ enF, update enPre now = some (enF, [Effect.npWrite enF.np]) ∧
            normalizeTarget en0.num_leds
              ((seq.getD (seq.length - 1) dummyStep).1) = some enF.np ∧
            enF.rgb_seq_active = false ∧ enF.rgb_animating = false) ∧
        (∃ enF, completingTick enPre = some (enF, [Effect.npWrite enF.np]) ∧
          normalizeTarget en0.num_leds
            ((seq.getD (seq.length - 1) dummyStep).1) = some enF.np ∧
          enF.rgb_seq_active = false ∧ enF.rgb_animating = false)) ∧
      (∀ (en : Engine) (now : ℤ), en.rgb_animating = false →
        ∃ en', update en now = some (en', (updateMatrix en now).2) ∧
          en'.np = en.np ∧ en'.rgb_animating = false ∧
          ∀ v, Effect.npWrite v ∉ (updateMatrix en now).2) ∧
      (∀ (en : Engine) (now : ℤ), en.rgb_animating = true →
        en.rgb_seq_active = true →
        ticks_diff now en.rgb_start_time < en.rgb_duration →
        ∀ en' fx, update en now = some (en', fx) →
          en'.rgb_animating = true ∧ en'.rgb_seq_active = true) := by
  obtain ⟨en1, hplay, hrun, hnum⟩ := play_rgb_sequence_Running hnp hne hwf
  have hwf1 : SeqWF en1.num_leds seq := by rw [hnum]; exact hwf
  have hlen0 : 0 < seq.length := by
    cases seq with
    | nil => exact absurd rfl hne
    | cons a b => simp
  refine ⟨en1, hplay, ?_, ?_, ?_, ?_⟩
  · intro j hj
    obtain ⟨enj, hcs, hrunj, _⟩ := completeSteps_noloop j hwf1 hrun (by omega)
    exact ⟨enj, hcs, hrunj.2.1, hrunj.1⟩
  · obtain ⟨enPre, hcs, hrunPre, hnumPre⟩ :=
      completeSteps_noloop (seq.length - 1) hwf1 hrun (by omega)
    simp only [Nat.zero_add] at hrunPre
    have hwfPre : SeqWF enPre.num_leds seq := by
      rw [hnumPre, hnum]
      exact hwf
    have hlast : (seq.length - 1) + 1 = seq.length := by omega
    have htgtPre := hrunPre.2.2.2.2.2.2.2.1
    rw [hnumPre, hnum] at htgtPre
    refine ⟨enPre, hcs, ?_, ?_⟩
    · intro now hge
      have hlastEval := updateRgb_completing_last now hrunPre hlast hge
      have hu := update_of_updateRgb_early _ _ _ _ hlastEval
      exact ⟨{ enPre with
          np := enPre.rgb_target_colors
          rgb_seq_idx := (seq.length - 1) + 1
          rgb_seq_active := false
          rgb_animating := false }, hu, htgtPre, rfl, rfl⟩
    · have hwfi := hwfPre (seq.length - 1) (by omega)
      have hdur := hrunPre.2.2.2.2.2.2.1
      have hH : (0 : ℤ) < TICKS_HALF := by norm_num [TICKS_HALF]
      have hge : enPre.rgb_duration ≤
          ticks_diff (ticks_add enPre.rgb_start_time enPre.rgb_duration)
            enPre.rgb_start_time := by
        rw [ticks_diff_ticks_add]
        · rw [hdur]
          have := hwfi.2.1
          omega
        · rw [hdur]
          exact hwfi.2.2
      have hlastEval := updateRgb_completing_last _ hrunPre hlast hge
      have hu := update_of_updateRgb_early _ _ _ _ hlastEval
      exact ⟨{ enPre with
          np := enPre.rgb_target_colors
          rgb_seq_idx := (seq.length - 1) + 1
          rgb_seq_active := false
          rgb_animating := false }, hu, htgtPre, rfl, rfl⟩
  · intro en now hinact
    obtain ⟨en', hupd, hnp', han', _, hno⟩ := update_inactive hinact
    exact ⟨en', hupd, hnp', han', hno⟩
  · intro en now ha hsa hlt en' fx h
    obtain ⟨en1', fx1, b, hrgb, hcase⟩ := update_inv h
    obtain ⟨h1, h2, _, _, _, _, _, _, _, _, _⟩ :=
      updateRgb_mid_flags ha hlt en1' fx1 b hrgb
    rcases hcase with ⟨hbt, he, hf⟩ | ⟨hbf, he, hf⟩
    · subst he
      exact ⟨h1, h2.trans hsa⟩
    · subst he
      constructor
      · rw [(updateMatrix_rgb en1' now).2.2.1]
        exact h1
      · rw [(updateMatrix_rgb en1' now).2.2.2.1]
        exact h2.trans hsa

/-- C4 witness: the two-step sequence on a 1-LED strip; after completing
step 0 the completing tick of the last step deactivates, renders exactly
`(7, 7, 7)` and pushes it once. -/
theorem C4_witness :
    (((play_rgb_sequence E0 seqW false 0).bind
        (completeSteps (seqW.length - 1))).bind completingTick).map
      (fun r => (r.1.rgb_seq_active, r.1.rgb_animating, r.1.np, r.2)) =
      some (false, false, [((7 : ℤ), 7, 7)],
        [Effect.npWrite [((7 : ℤ), 7, 7)]]) := by
  obtain ⟨en1, hplay, hact, ⟨enPre, hpre, hall, enF, hct, hnorm, hsa, han⟩,
    hpost, hmid⟩ :=
    C4_nonloop_terminates seqW E0 0 (by decide) (by decide) (by decide)
  rw [hplay, Option.some_bind, hpre, Option.some_bind, hct, Option.map_some']
  have hnp7 : enF.np = [((7 : ℤ), 7, 7)] := by
    have hval : normalizeTarget E0.num_leds
        ((seqW.getD (seqW.length - 1) dummyStep).1) =
        some [((7 : ℤ), 7, 7)] := by decide
    rw [hval, Option.some.injEq] at hnorm
    exact hnorm.symm
  rw [hsa, han, hnp7]

/-- The matrix half advances when active, non-empty, and the interval has
strictly elapsed: index steps modulo the frame count, the stamped time
resets, and the new frame is rendered. -/
theorem updateMatrix_advance {en : Engine} {now : ℤ}
    (hma : en.matrix_animating = true) (hfne : en.matrix_frames ≠ [])
    (hdiff : en.matrix_delay < ticks_diff now en.matrix_last_tick) :
    updateMatrix en now =
      ({ en with
          matrix_last_tick := now
          matrix_idx := (en.matrix_idx + 1) % en.matrix_frames.length },
        [Effect.matrixWrite (en.matrix_frames.getD
          ((en.matrix_idx + 1) % en.matrix_frames.length) [])]) := by
  have hcond : (en.matrix_animating && !en.matrix_frames.isEmpty) = true := by
    rw [hma]
    cases hmm : en.matrix_frames with
    | nil => exact absurd hmm hfne
    | cons f fs => rfl
  unfold updateMatrix
  rw [hcond, if_pos rfl,
    if_pos (by omega : ticks_diff now en.matrix_last_tick > en.matrix_delay)]

/-- The matrix half is inert when the interval has not strictly elapsed. -/
theorem updateMatrix_idle {en : Engine} {now : ℤ}
    (hle : ticks_diff now en.matrix_last_tick ≤ en.matrix_delay) :
    updateMatrix en now = (en, []) := by
  unfold updateMatrix
  split
  · rw [if_neg (by omega)]
  · rfl

/-- C7 (amended): `play_matrix` stores frames, delay and a zero index,
stamps the current time and renders frame 0 immediately; a tick advances
the index modulo the frame count and renders that frame only when
`now - last_tick` is STRICTLY greater than the delay, and does nothing
otherwise. Consequently, with frames `[A, B]` and delay 200 played at 0 ms,
ticks at 210, 410 and 610 ms render `B`, then nothing (410 - 210 = 200 is
not > 200), then `A` — not `B, A, B` as the claim's trace expects. -/
theorem C7_frame_cycler :
    (∀ (en : Engine) (frames : List Frame) (d now : ℤ), frames ≠ [] →
      play_matrix en frames d now =
        ({ en with
            matrix_frames := frames
            matrix_delay := d
            matrix_idx := 0
            matrix_last_tick := now
            matrix_animating := true },
          [Effect.matrixWrite (frames.getD 0 [])])) ∧
    (∀ (en : Engine) (now : ℤ), en.matrix_animating = true →
      en.matrix_frames ≠ [] →
      en.matrix_delay < ticks_diff now en.matrix_last_tick →
      updateMatrix en now =
        ({ en with
            matrix_last_tick := now
            matrix_idx := (en.matrix_idx + 1) % en.matrix_frames.length },
          [Effect.matrixWrite (en.matrix_frames.getD
            ((en.matrix_idx + 1) % en.matrix_frames.length) [])])) ∧
    (∀ (en : Engine) (now : ℤ),
      ticks_diff now en.matrix_last_tick ≤ en.matrix_delay →
      updateMatrix en now = (en, [])) ∧
    ((play_matrix E8 [face1, face2] 200 0).2 = [Effect.matrixWrite face1] ∧
      (runTicks (play_matrix E8 [face1, face2] 200 0).1 [210, 410, 610]).map
        (fun p => p.2) =
        some [[Effect.matrixWrite face2], [], [Effect.matrixWrite face1]]) := by
  refine ⟨?_, ?_, ?_, by decide, by decide⟩
  · intro en frames d now hne
    cases frames with
    | nil => exact absurd rfl hne
    | cons f fs => rfl
  · intro en now hma hfne hdiff
    exact updateMatrix_advance hma hfne hdiff
  · intro en now hle
    exact updateMatrix_idle hle

/-- C7 (counterexample): with frames `[A, B]` and delay 200 played at time
0, the render sequence over ticks at 210, 410 and 610 ms is `B`, nothing,
`A` — the tick at 410 renders nothing because `410 - 210 = 200` is not
strictly greater than the 200 ms delay — contradicting the claim's trace
`A, B, A, B` at times 0, 210, 410, 610. -/
theorem C7_counterexample :
    (runTicks (play_matrix E8 [face1, face2] 200 0).1 [210, 410, 610]).map
      (fun p => p.2) =
      some [[Effect.matrixWrite face2], [], [Effect.matrixWrite face1]] ∧
    [[Effect.matrixWrite face2], [], [Effect.matrixWrite face1]] ≠
      [[Effect.matrixWrite face2], [Effect.matrixWrite face1],
        [Effect.matrixWrite face2]] := by decide

/-- C7 witness: the amended statement instantiated on one-frame play, an
advancing tick and an idle tick of a concrete cycler. -/
theorem C7_witness :
    (play_matrix E8 [face1] 5 7).2 = [Effect.matrixWrite face1] ∧
    updateMatrix (play_matrix E8 [face1, face2] 200 0).1 210 =
      ({ (play_matrix E8 [face1, face2] 200 0).1 with
          matrix_last_tick := 210
          matrix_idx := 1 },
        [Effect.matrixWrite face2]) ∧
    updateMatrix (play_matrix E8 [face1, face2] 200 0).1 100 =
      ((play_matrix E8 [face1, face2] 200 0).1, []) := by
  have h := C7_frame_cycler
  refine ⟨?_, ?_, ?_⟩
  · rw [h.1 E8 [face1] 5 7 (by decide)]
    rfl
  · rw [h.2.1 (play_matrix E8 [face1, face2] 200 0).1 210 (by decide)
      (by decide) (by decide)]
    decide
  · exact h.2.2.1 (play_matrix E8 [face1, face2] 200 0).1 100 (by decide)

/-- C9 (amended): every successful main-loop iteration evaluates the
fade/sequence logic and the actuator-deadline check; the FrameCycler's
time check is also evaluated — EXCEPT on the iteration in which a
non-looping sequence completes: there the source's early `return` skips the
matrix logic entirely, so the matrix state is untouched and no matrix
render happens even if the frame interval had elapsed. On every other
iteration the matrix check runs: when active with frames and a strictly
elapsed interval it advances and renders. -/
theorem C9_tick_advances (w : World) (now : ℤ) (w' : World)
    (fx : List Effect) (fired : Bool)
    (h : loopIter w now = some (w', fx, fired)) :
    ((fired, w'.motor_stop_time) = motorTick w.motor_stop_time now) ∧
    (seqCompletesNonLooping w.anim now →
      w'.anim.matrix_animating = w.anim.matrix_animating ∧
      w'.anim.matrix_idx = w.anim.matrix_idx ∧
      w'.anim.matrix_last_tick = w.anim.matrix_last_tick ∧
      ∀ f, Effect.matrixWrite f ∉ fx) ∧
    (¬ seqCompletesNonLooping w.anim now →
      w.anim.matrix_animating = true → w.anim.matrix_frames ≠ [] →
      w.anim.matrix_delay < ticks_diff now w.anim.matrix_last_tick →
      w'.anim.matrix_idx =
        (w.anim.matrix_idx + 1) % w.anim.matrix_frames.length ∧
      w'.anim.matrix_last_tick = now ∧
      Effect.matrixWrite (w.anim.matrix_frames.getD
        ((w.anim.matrix_idx + 1) % w.anim.matrix_frames.length) []) ∈ fx) := by
  obtain ⟨hupd, hmot, hdut⟩ := loopIter_inv h
  refine ⟨hmot, ?_, ?_⟩
  · intro hP
    have heval := updateRgb_eval_early w.anim now hP
    obtain ⟨en1, fx1, b, hrgb, hcase⟩ := update_inv hupd
    rw [heval, Option.some.injEq, Prod.mk.injEq, Prod.mk.injEq] at hrgb
    obtain ⟨hX, hFX, hb⟩ := hrgb
    rcases hcase with ⟨hbt, he, hf⟩ | ⟨hbf, he, hf⟩
    · subst he
      subst hf
      rw [← hX, ← hFX]
      refine ⟨rfl, rfl, rfl, ?_⟩
      intro f
      simp
    · rw [hbf] at hb
      cases hb
  · intro hP hma hfne hdiff
    obtain ⟨en1, fx1, b, hrgb, hcase⟩ := update_inv hupd
    have hb := updateRgb_no_early w.anim now hP en1 fx1 b hrgb
    subst hb
    rcases hcase with ⟨hbt, _, _⟩ | ⟨_, he, hf⟩
    · exact Bool.noConfusion hbt
    · subst hf
      obtain ⟨hp1, hp2, hp3, hp4, hp5, _⟩ := updateRgb_matrix_pres hrgb
      have hadv := @updateMatrix_advance en1 now
        (by rw [hp1]; exact hma) (by rw [hp2]; exact hfne)
        (by rw [hp3, hp4]; exact hdiff)
      refine ⟨?_, ?_, ?_⟩
      · rw [he, hadv]
        show (en1.matrix_idx + 1) % en1.matrix_frames.length = _
        rw [hp2, hp5]
      · rw [he, hadv]
      · rw [hadv, hp2, hp5]
        simp

/-- C9 (counterexample): on the iteration at 300 ms the non-looping
sequence of `CW` completes; the matrix cycler is active, has frames and its
200 ms interval has elapsed (300 > 200), yet the iteration performs no
matrix render and leaves the matrix index and time stamp untouched — the
early `return` skipped the FrameCycler's time check, contradicting the
claim that every iteration evaluates it. -/
theorem C9_counterexample :
    loopIter CW 300 = some (CW', [Effect.npWrite [((5 : ℤ), 5, 5)]], false) ∧
    CW.anim.matrix_animating = true ∧ CW.anim.matrix_frames ≠ [] ∧
    CW.anim.matrix_delay < ticks_diff 300 CW.anim.matrix_last_tick ∧
    CW'.anim.matrix_idx = CW.anim.matrix_idx ∧
    CW'.anim.matrix_last_tick = CW.anim.matrix_last_tick := by decide

/-- C9 witness: the amended theorem on the completing iteration of `CW`
(matrix untouched) and on the same iteration with the sequence inactive
(`CW2`, matrix advances and renders). -/
theorem C9_witness :
    (CW'.anim.matrix_idx = CW.anim.matrix_idx ∧
      CW'.anim.matrix_last_tick = CW.anim.matrix_last_tick) ∧
    (CW2'.anim.matrix_idx =
        (CW2.anim.matrix_idx + 1) % CW2.anim.matrix_frames.length ∧
      CW2'.anim.matrix_last_tick = 300 ∧
      Effect.matrixWrite (CW2.anim.matrix_frames.getD
        ((CW2.anim.matrix_idx + 1) % CW2.anim.matrix_frames.length) []) ∈
        [Effect.matrixWrite face2]) := by
  have hA := (C9_tick_advances CW 300 CW'
    [Effect.npWrite [((5 : ℤ), 5, 5)]] false (by decide)).2.1 (by decide)
  have hB := (C9_tick_advances CW2 300 CW2'
    [Effect.matrixWrite face2] false (by decide)).2.2 (by decide) (by decide)
    (by decide) (by decide)
  exact ⟨⟨hA.2.1, hA.2.2.1⟩, hB⟩
